import Mathlib

/-!
Verification of the X4-Foundations-Station-Planner resource-flow engine.

This file gives a shallow embedding, over the rationals, of the computation
engine found under `src/engine` (`sunlight.ts`, `workforce.ts`,
`computeModule.ts`, `computeStation.ts`, `computeNetwork.ts`) together with
the data model of `src/types/plan.ts` and `src/types/gamedata.ts`, and proves
properties of the embedded functions.

JavaScript `Map` objects are embedded as insertion-ordered association lists
(`QMap`, `QMap2` below) whose `set`/`get`/iteration semantics replicate the
`Map` API as used by the engine.  JavaScript numbers are embedded as `ℚ`.
-/

/-- Association list with JS-`Map` semantics: `set` replaces the value of the
first matching key in place, otherwise appends; iteration order is insertion
order. -/
abbrev QMap := List (String × ℚ)

/-- Nested map `Map<string, Map<string, number>>`. -/
abbrev QMap2 := List (String × QMap)

/-- `map.get(k)` (as `Option`). -/
def QMap.find? (m : QMap) (k : String) : Option ℚ :=
  (List.find? (fun p => p.1 = k) m).map (fun p => p.2)

/-- `map.get(k) || 0` and `map.get(k) ?? 0` (the engine only stores numbers,
so both coalescing forms give the stored value or `0`). -/
def QMap.getD (m : QMap) (k : String) : ℚ := (QMap.find? m k).getD 0

/-- `map.set(k, v)`. -/
def QMap.set (m : QMap) (k : String) (v : ℚ) : QMap :=
  match m with
  | [] => [(k, v)]
  | p :: rest => if p.1 = k then (k, v) :: rest else p :: QMap.set rest k v

/-- `outer.get(k)` (as `Option`). -/
def QMap2.find? (m : QMap2) (k : String) : Option QMap :=
  (List.find? (fun p => p.1 = k) m).map (fun p => p.2)

/-- `outer.set(k, v)`. -/
def QMap2.set (m : QMap2) (k : String) (v : QMap) : QMap2 :=
  match m with
  | [] => [(k, v)]
  | p :: rest => if p.1 = k then (k, v) :: rest else p :: QMap2.set rest k v

/-- The JS pattern `const inner = outer.get(k); if (inner) mutate(inner)`:
update the inner map in place when the key exists, otherwise do nothing. -/
def QMap2.update (m : QMap2) (k : String) (f : QMap → QMap) : QMap2 :=
  match m with
  | [] => []
  | p :: rest => if p.1 = k then (p.1, f p.2) :: rest else p :: QMap2.update rest k f

/-- `outer.get(k)?.get(w) ?? 0`. -/
def QMap2.lookD (m : QMap2) (k w : String) : ℚ :=
  QMap.getD ((QMap2.find? m k).getD []) w

/-- `xs.isPrefixOf`-style check on character lists, written out so the
embedding is self-contained. -/
def listStartsWith : List Char → List Char → Bool
  | _, [] => true
  | [], _ :: _ => false
  | c :: rest, p :: ps => c = p && listStartsWith rest ps

/-- Substring occurrence on character lists. -/
def listHasSub : List Char → List Char → Bool
  | [], pat => pat.isEmpty
  | c :: rest, pat => listStartsWith (c :: rest) pat || listHasSub rest pat

/-- JS `String.prototype.includes`. -/
def strIncludes (s pat : String) : Bool := listHasSub s.data pat.data

/-- `record[key]` lookup on an embedded `Record<string, T>`. -/
def recordFind? {α : Type} (rec : List (String × α)) (k : String) : Option α :=
  (List.find? (fun p => p.1 = k) rec).map (fun p => p.2)

/-- 2D point `{x, y}`. -/
structure Vec2 where
  x : ℚ
  y : ℚ
deriving DecidableEq

/-- `{width, height}`. -/
structure Dim2 where
  width : ℚ
  height : ℚ
deriving DecidableEq

/-- `ResourceAmount` (types/plan.ts). -/
structure ResourceAmount where
  wareId : String
  amount : ℚ
deriving DecidableEq

/-- `WareInput` (types/gamedata.ts). -/
structure WareInput where
  ware : String
  amount : ℚ
deriving DecidableEq

/-- `Recipe` (types/gamedata.ts). -/
structure Recipe where
  id : String
  wareId : String
  method : String
  time : ℚ
  amount : ℚ
  inputs : List WareInput
  workforceBonus : ℚ
deriving DecidableEq

/-- `Ware` (types/gamedata.ts). -/
structure Ware where
  id : String
  name : String
  group : String
  transport : String
  volume : ℚ
  tags : List String
deriving DecidableEq

/-- `ProductionModule` (types/gamedata.ts). -/
structure ProductionModule where
  id : String
  name : String
  producedWareId : String
  workforceMax : ℚ
deriving DecidableEq

/-- `HabitatModule` (types/gamedata.ts). -/
structure HabitatModule where
  id : String
  name : String
  race : String
  workforceCapacity : ℚ
deriving DecidableEq

/-- `StorageModule` (types/gamedata.ts); the cargo-type union is embedded as a
string. -/
structure StorageModule where
  id : String
  name : String
  cargoMax : ℚ
  cargoType : String
deriving DecidableEq

/-- Sector resource flags (types/gamedata.ts). -/
structure SectorResources where
  ice : Bool
  ore : Bool
  silicon : Bool
  rhydonium : Bool
  rawScrap : Bool
  helium : Bool
  methane : Bool
  tibanna : Bool
deriving DecidableEq

/-- `Sector` (types/gamedata.ts). -/
structure Sector where
  id : String
  name : String
  sunlight : ℚ
  owner : String
  resources : SectorResources
deriving DecidableEq

/-- The `modules` field of `GameData`. -/
structure ModulesCatalog where
  production : List (String × ProductionModule)
  habitat : List (String × HabitatModule)
  storage : List (String × StorageModule)
deriving DecidableEq

/-- `GameData` (types/gamedata.ts); `Record<string, T>` fields are embedded as
insertion-ordered association lists. -/
structure GameData where
  wares : List (String × Ware)
  recipes : List (String × Recipe)
  modules : ModulesCatalog
  sectors : List (String × Sector)
deriving DecidableEq

/-- `STATION_INPUT_ID` (types/plan.ts). -/
def STATION_INPUT_ID : String := "__station_input__"

/-- `STATION_OUTPUT_ID` (types/plan.ts). -/
def STATION_OUTPUT_ID : String := "__station_output__"

/-- `ConnectionMode` (types/plan.ts). -/
inductive ConnectionMode where
  | auto : ConnectionMode
  | custom : ConnectionMode
  | max : ConnectionMode
deriving DecidableEq

/-- `PlanSector` (types/plan.ts). -/
structure PlanSector where
  id : String
  name : String
  sunlight : ℚ
  position : Vec2
  size : Dim2
deriving DecidableEq

/-- `PlanModule` (types/plan.ts). -/
structure PlanModule where
  id : String
  blueprintId : String
  count : ℚ
  position : Vec2
  outputOrder : Option (List String)
  inputOrder : Option (List String)
deriving DecidableEq

/-- `PlanModuleConnection` (types/plan.ts). -/
structure PlanModuleConnection where
  id : String
  sourceModuleId : String
  targetModuleId : String
  wareId : String
  amount : ℚ
  mode : Option ConnectionMode
  locked : Option Bool
  ratio : Option ℚ
deriving DecidableEq

/-- `PlanConnection` (types/plan.ts). -/
structure PlanConnection where
  id : String
  sourceStationId : String
  targetStationId : String
  wareId : String
  amount : ℚ
  mode : Option ConnectionMode
  routePoints : Option (List Vec2)
deriving DecidableEq

/-- `PlanStation` (types/plan.ts). -/
structure PlanStation where
  id : String
  name : String
  sectorId : Option String
  position : Vec2
  sunlightOverride : Option ℚ
  modules : List PlanModule
  moduleConnections : List PlanModuleConnection
  fillHabitats : Option Bool
  outputOrder : Option (List String)
  inputOrder : Option (List String)
  stationInputPosition : Option Vec2
  stationOutputPosition : Option Vec2
deriving DecidableEq

/-- `Plan` (types/plan.ts). -/
structure Plan where
  id : String
  name : String
  version : ℚ
  createdAt : String
  updatedAt : String
  sectors : List PlanSector
  stations : List PlanStation
  connections : List PlanConnection
deriving DecidableEq

/-- `ModuleComputed` (types/plan.ts). -/
structure ModuleComputed where
  moduleId : String
  blueprintId : String
  grossInputs : List ResourceAmount
  grossOutputs : List ResourceAmount
  netInputs : List ResourceAmount
  netOutputs : List ResourceAmount
deriving DecidableEq

/-- `ConnectionComputed` (types/plan.ts). -/
structure ConnectionComputed where
  connectionId : String
  effectiveAmount : ℚ
  sourceConstrained : Bool
  targetConstrained : Bool
deriving DecidableEq

/-- `StationComputed` (types/plan.ts). -/
structure StationComputed where
  stationId : String
  effectiveSunlight : ℚ
  totalWorkforceRequired : ℚ
  totalWorkforceCapacity : ℚ
  actualPopulation : ℚ
  workforceFoodDemand : ℚ
  workforceMedicalDemand : ℚ
  modules : List ModuleComputed
  grossInputs : List ResourceAmount
  grossOutputs : List ResourceAmount
  netInputs : List ResourceAmount
  netOutputs : List ResourceAmount
  availableForImport : List ResourceAmount
  availableForExport : List ResourceAmount
  stationInputs : List ResourceAmount
  stationOutputs : List ResourceAmount
  externallySupplied : List ResourceAmount
  externallyConsumed : List ResourceAmount
  remainingInputs : List ResourceAmount
  remainingOutputs : List ResourceAmount
  moduleConnections : List ConnectionComputed
deriving DecidableEq

/-- `ResourceDeficit` (types/plan.ts). -/
structure ResourceDeficit where
  wareId : String
  stationId : String
  required : ℚ
  supplied : ℚ
  deficit : ℚ
deriving DecidableEq

/-- `NetworkComputed` (types/plan.ts). -/
structure NetworkComputed where
  stations : List StationComputed
  connections : List ConnectionComputed
  totalInputs : List ResourceAmount
  totalOutputs : List ResourceAmount
  deficits : List ResourceDeficit
deriving DecidableEq

/-- `DEFAULT_SUNLIGHT` (engine/sunlight.ts). -/
def DEFAULT_SUNLIGHT : ℚ := 100

/-- `SUNLIGHT_AFFECTED_WARES` (engine/sunlight.ts). -/
def SUNLIGHT_AFFECTED_WARES : List String := ["energycells"]

/-- `getEffectiveSunlight` (engine/sunlight.ts).  The override wins whenever
it is non-null; `if (station.sectorId)` is falsy for both `null` and the
empty string. -/
def getEffectiveSunlight (station : PlanStation) (sectors : List PlanSector) : ℚ :=
  match station.sunlightOverride with
  | some o => o
  | none =>
    match station.sectorId with
    | some sid =>
      if sid ≠ "" then
        match sectors.find? (fun s => s.id = sid) with
        | some sector => sector.sunlight
        | none => DEFAULT_SUNLIGHT
      else DEFAULT_SUNLIGHT
    | none => DEFAULT_SUNLIGHT

/-- `getSunlightMultiplier` (engine/sunlight.ts). -/
def getSunlightMultiplier (wareId : String) (effectiveSunlight : ℚ) : ℚ :=
  if SUNLIGHT_AFFECTED_WARES.contains wareId then effectiveSunlight / 100 else 1

/-- `isWareSunlightAffected` (engine/sunlight.ts). -/
def isWareSunlightAffected (wareId : String) : Bool :=
  SUNLIGHT_AFFECTED_WARES.contains wareId

/-- `HOUR_IN_SECONDS` (engine/workforce.ts). -/
def HOUR_IN_SECONDS : ℚ := 3600

/-- `WORKFORCE_BUSY` (engine/workforce.ts): food 75, medical 45, per 200,
cycle 600. -/
def WORKFORCE_BUSY_FOOD : ℚ := 75
def WORKFORCE_BUSY_MEDICAL : ℚ := 45
def WORKFORCE_IDLE_FOOD : ℚ := 50
def WORKFORCE_IDLE_MEDICAL : ℚ := 30
def WORKFORCE_PER : ℚ := 200
def WORKFORCE_CYCLE : ℚ := 600

/-- `FOOD_WARE_ID` (engine/workforce.ts). -/
def FOOD_WARE_ID : String := "foodrations"

/-- `MEDICAL_WARE_ID` (engine/workforce.ts). -/
def MEDICAL_WARE_ID : String := "medicalsupplies"

/-- `WorkforceStats` (engine/workforce.ts). -/
structure WorkforceStats where
  totalRequired : ℚ
  totalCapacity : ℚ
  actualPopulation : ℚ
  busyWorkers : ℚ
  idleWorkers : ℚ
  workerRatio : ℚ
  foodDemand : ℚ
  medicalDemand : ℚ
deriving DecidableEq

/-- `calculateWorkforceStats` (engine/workforce.ts). -/
def calculateWorkforceStats (totalWorkforceRequired totalWorkforceCapacity : ℚ)
    (fillHabitats : Bool) : WorkforceStats :=
  let actualPopulation :=
    if fillHabitats then totalWorkforceCapacity
    else min totalWorkforceRequired totalWorkforceCapacity
  let busyWorkers := min actualPopulation totalWorkforceRequired
  let idleWorkers := max (actualPopulation - totalWorkforceRequired) 0
  let workerRatio :=
    if totalWorkforceRequired > 0 then
      min (actualPopulation / totalWorkforceRequired) 1
    else 0
  let busyFoodPerCycle := busyWorkers * (WORKFORCE_BUSY_FOOD / WORKFORCE_PER)
  let idleFoodPerCycle := idleWorkers * (WORKFORCE_IDLE_FOOD / WORKFORCE_PER)
  let busyMedicalPerCycle := busyWorkers * (WORKFORCE_BUSY_MEDICAL / WORKFORCE_PER)
  let idleMedicalPerCycle := idleWorkers * (WORKFORCE_IDLE_MEDICAL / WORKFORCE_PER)
  let hourlyMultiplier := HOUR_IN_SECONDS / WORKFORCE_CYCLE
  { totalRequired := totalWorkforceRequired
    totalCapacity := totalWorkforceCapacity
    actualPopulation := actualPopulation
    busyWorkers := busyWorkers
    idleWorkers := idleWorkers
    workerRatio := workerRatio
    foodDemand := (busyFoodPerCycle + idleFoodPerCycle) * hourlyMultiplier
    medicalDemand := (busyMedicalPerCycle + idleMedicalPerCycle) * hourlyMultiplier }

/-- `getWorkforceMultiplier` (engine/workforce.ts). -/
def getWorkforceMultiplier (workforceBonus workerRatio : ℚ) : ℚ :=
  1 + workforceBonus * workerRatio

/-- `getWorkforceUpkeepForCapacity` (engine/workforce.ts). -/
def getWorkforceUpkeepForCapacity (stats : WorkforceStats) (moduleCapacity : ℚ) :
    List ResourceAmount :=
  if stats.totalCapacity ≤ 0 ∨ moduleCapacity ≤ 0 then []
  else
    let share := moduleCapacity / stats.totalCapacity
    (if stats.foodDemand > 0 then [ResourceAmount.mk FOOD_WARE_ID (stats.foodDemand * share)] else [])
    ++ (if stats.medicalDemand > 0 then [ResourceAmount.mk MEDICAL_WARE_ID (stats.medicalDemand * share)] else [])

/-- `getWorkforceUpkeep` (engine/workforce.ts). -/
def getWorkforceUpkeep (stats : WorkforceStats) : List ResourceAmount :=
  (if stats.foodDemand > 0 then [ResourceAmount.mk FOOD_WARE_ID stats.foodDemand] else [])
  ++ (if stats.medicalDemand > 0 then [ResourceAmount.mk MEDICAL_WARE_ID stats.medicalDemand] else [])

/-- `findRecipeForModule` (engine/computeModule.ts). -/
def findRecipeForModule (module' : ProductionModule) (recipes : List (String × Recipe)) :
    Option Recipe :=
  let wareId := module'.producedWareId
  let inferredMethod :=
    if strIncludes module'.id "_imp_" then "imperial"
    else if strIncludes module'.id "_sith_" then "sith"
    else if strIncludes module'.id "_ter_" then "terran"
    else "default"
  match recordFind? recipes (wareId ++ "_" ++ inferredMethod) with
  | some r => some r
  | none =>
    match recordFind? recipes (wareId ++ "_default") with
    | some r => some r
    | none => (recipes.map (fun p => p.2)).find? (fun r => r.wareId = wareId)

/-- Module kind returned by `getModuleType`. -/
inductive ModuleType where
  | production : ModuleType
  | habitat : ModuleType
  | storage : ModuleType
deriving DecidableEq

/-- `getModuleType` (engine/computeModule.ts). -/
def getModuleType (blueprintId : String) (gameData : GameData) : Option ModuleType :=
  if (recordFind? gameData.modules.production blueprintId).isSome then some ModuleType.production
  else if (recordFind? gameData.modules.habitat blueprintId).isSome then some ModuleType.habitat
  else if (recordFind? gameData.modules.storage blueprintId).isSome then some ModuleType.storage
  else none

/-- `computeModuleIO` (engine/computeModule.ts); renamed `computeModuleIo`
here.  Returns gross I/O with net initialized to gross. -/
def computeModuleIo (planModule : PlanModule) (gameData : GameData)
    (effectiveSunlight workerRatio : ℚ) : ModuleComputed :=
  let moduleType := getModuleType planModule.blueprintId gameData
  let io : List ResourceAmount × List ResourceAmount :=
    if moduleType = some ModuleType.production then
      match recordFind? gameData.modules.production planModule.blueprintId with
      | some prodModule =>
        match findRecipeForModule prodModule gameData.recipes with
        | some recipe =>
          let sunlightMult := getSunlightMultiplier prodModule.producedWareId effectiveSunlight
          let workforceMult := getWorkforceMultiplier recipe.workforceBonus workerRatio
          let outputMultiplier := sunlightMult * workforceMult
          let cyclesPerHour := HOUR_IN_SECONDS / recipe.time
          let outputPerHour := recipe.amount * planModule.count * outputMultiplier * cyclesPerHour
          (recipe.inputs.map (fun input =>
             ResourceAmount.mk input.ware (input.amount * planModule.count * outputMultiplier * cyclesPerHour)),
           [ResourceAmount.mk prodModule.producedWareId outputPerHour])
        | none => ([], [])
      | none => ([], [])
    else ([], [])
  { moduleId := planModule.id
    blueprintId := planModule.blueprintId
    grossInputs := io.1
    grossOutputs := io.2
    netInputs := io.1
    netOutputs := io.2 }

/-- `aggregateResources` (engine/computeStation.ts): accumulate amounts by
ware id into a JS map. -/
def aggregateResFold (resources : List ResourceAmount) : QMap :=
  resources.foldl (fun m r => QMap.set m r.wareId (QMap.getD m r.wareId + r.amount)) []

/-- Stable insertion of a `ResourceAmount` into a descending-by-amount list,
placed after existing equal amounts (JS stable sort behaviour). -/
def insertDesc (x : ResourceAmount) : List ResourceAmount → List ResourceAmount
  | [] => [x]
  | y :: rest => if x.amount > y.amount then x :: y :: rest else y :: insertDesc x rest

/-- `.sort((a, b) => b.amount - a.amount)`: stable descending sort. -/
def sortByAmountDesc : List ResourceAmount → List ResourceAmount
  | [] => []
  | x :: xs => insertDesc x (sortByAmountDesc xs)

/-- `aggregateResources` (engine/computeStation.ts): sum by ware, drop
amounts at or below the 0.01 epsilon, sort descending. -/
def aggregateResourcesStation (resources : List ResourceAmount) : List ResourceAmount :=
  sortByAmountDesc
    (((aggregateResFold resources).map (fun p => ResourceAmount.mk p.1 p.2)).filter
      (fun r => r.amount > 1/100))

/-- `aggregateResources` (engine/computeNetwork.ts): same but drops only
non-positive amounts. -/
def aggregateResourcesNetwork (resources : List ResourceAmount) : List ResourceAmount :=
  sortByAmountDesc
    (((aggregateResFold resources).map (fun p => ResourceAmount.mk p.1 p.2)).filter
      (fun r => r.amount > 0))

/-- Result of one `switch (mode)` flow resolution. -/
structure FlowResult where
  effectiveAmount : ℚ
  sourceConstrained : Bool
  targetConstrained : Bool
deriving DecidableEq

/-- The `switch (mode)` bodies of engine/computeStation.ts (module-to-module
connections, lines 344-364) and engine/computeNetwork.ts (inter-station
connections, lines 103-123), which are textually identical: `custom` clamps
the stored amount by source availability and target need; `max` and `auto`
both take `min(sourceAvailable, targetNeed)`. -/
def resolveFlow (mode : ConnectionMode) (storedAmount sourceAvailable targetNeed : ℚ) :
    FlowResult :=
  match mode with
  | ConnectionMode.custom =>
    { effectiveAmount := min storedAmount (min sourceAvailable targetNeed)
      sourceConstrained := decide (storedAmount > sourceAvailable)
      targetConstrained := decide (storedAmount > targetNeed) }
  | ConnectionMode.max =>
    { effectiveAmount := min sourceAvailable targetNeed
      sourceConstrained := decide (sourceAvailable < targetNeed)
      targetConstrained := decide (targetNeed < sourceAvailable) }
  | ConnectionMode.auto =>
    { effectiveAmount := min sourceAvailable targetNeed
      sourceConstrained := decide (sourceAvailable < targetNeed)
      targetConstrained := decide (targetNeed < sourceAvailable) }

/-- Mutable state threaded through `computeStation`'s connection loops:
the four per-module maps plus the accumulating `moduleConnectionComputeds`. -/
structure StationResolveState where
  remOut : QMap2
  remIn : QMap2
  supplied : QMap2
  exported : QMap2
  computeds : List ConnectionComputed

/-- Filter predicate for module-to-module connections
(engine/computeStation.ts lines 312-316). -/
def isM2MConn (c : PlanModuleConnection) : Bool :=
  c.sourceModuleId ≠ STATION_INPUT_ID && c.targetModuleId ≠ STATION_OUTPUT_ID

/-- Filter predicate for Station-Input→module connections (lines 317-319). -/
def isStationInputConn (c : PlanModuleConnection) : Bool :=
  c.sourceModuleId = STATION_INPUT_ID

/-- Filter predicate for module→Station-Output connections (lines 320-322). -/
def isStationOutputConn (c : PlanModuleConnection) : Bool :=
  c.targetModuleId = STATION_OUTPUT_ID

/-- One iteration of the module-to-module connection loop
(engine/computeStation.ts lines 328-394). -/
def processM2MConn (st : StationResolveState) (conn : PlanModuleConnection) :
    StationResolveState :=
  let mode := conn.mode.getD ConnectionMode.auto
  let sourceAvailable := QMap2.lookD st.remOut conn.sourceModuleId conn.wareId
  let targetNeed := QMap2.lookD st.remIn conn.targetModuleId conn.wareId
  let r := resolveFlow mode conn.amount sourceAvailable targetNeed
  { remOut := QMap2.update st.remOut conn.sourceModuleId
      (fun m => QMap.set m conn.wareId (sourceAvailable - r.effectiveAmount))
    remIn := QMap2.update st.remIn conn.targetModuleId
      (fun m => QMap.set m conn.wareId (targetNeed - r.effectiveAmount))
    supplied := QMap2.update st.supplied conn.targetModuleId
      (fun m => QMap.set m conn.wareId (QMap.getD m conn.wareId + r.effectiveAmount))
    exported := QMap2.update st.exported conn.sourceModuleId
      (fun m => QMap.set m conn.wareId (QMap.getD m conn.wareId + r.effectiveAmount))
    computeds := st.computeds ++
      [ConnectionComputed.mk conn.id r.effectiveAmount r.sourceConstrained r.targetConstrained] }

/-- One iteration of the Station-Input connection loop
(engine/computeStation.ts lines 397-438): external supply is unlimited, so
`custom` caps only by target need and `auto`/`max` take exactly the need;
`sourceConstrained` is never set. -/
def processStationInputConn (st : StationResolveState) (conn : PlanModuleConnection) :
    StationResolveState :=
  let mode := conn.mode.getD ConnectionMode.auto
  let targetNeed := QMap2.lookD st.remIn conn.targetModuleId conn.wareId
  let r : FlowResult :=
    match mode with
    | ConnectionMode.custom =>
      { effectiveAmount := min conn.amount targetNeed
        sourceConstrained := false
        targetConstrained := decide (conn.amount > targetNeed) }
    | _ =>
      { effectiveAmount := targetNeed
        sourceConstrained := false
        targetConstrained := false }
  { st with
    remIn := QMap2.update st.remIn conn.targetModuleId
      (fun m => QMap.set m conn.wareId (targetNeed - r.effectiveAmount))
    computeds := st.computeds ++
      [ConnectionComputed.mk conn.id r.effectiveAmount r.sourceConstrained r.targetConstrained] }

/-- One iteration of the Station-Output connection loop
(engine/computeStation.ts lines 441-480). -/
def processStationOutputConn (st : StationResolveState) (conn : PlanModuleConnection) :
    StationResolveState :=
  let mode := conn.mode.getD ConnectionMode.auto
  let sourceAvailable := QMap2.lookD st.remOut conn.sourceModuleId conn.wareId
  let r : FlowResult :=
    match mode with
    | ConnectionMode.custom =>
      { effectiveAmount := min conn.amount sourceAvailable
        sourceConstrained := decide (conn.amount > sourceAvailable)
        targetConstrained := false }
    | _ =>
      { effectiveAmount := sourceAvailable
        sourceConstrained := false
        targetConstrained := false }
  { st with
    remOut := QMap2.update st.remOut conn.sourceModuleId
      (fun m => QMap.set m conn.wareId (sourceAvailable - r.effectiveAmount))
    computeds := st.computeds ++
      [ConnectionComputed.mk conn.id r.effectiveAmount r.sourceConstrained r.targetConstrained] }

/-- Replace the first module with the given id (the `modules.find(...)` +
in-place mutation pattern); no-op when the id is absent. -/
def updateFirstModule (mods : List ModuleComputed) (mid : String)
    (f : ModuleComputed → ModuleComputed) : List ModuleComputed :=
  match mods with
  | [] => []
  | mc :: rest =>
    if mc.moduleId = mid then f mc :: rest else mc :: updateFirstModule rest mid f

/-- Replace the last module with the given id (the `moduleMap.get(id)` +
in-place mutation pattern: the JS map holds the last computed entry per id). -/
def updateLastModule (mods : List ModuleComputed) (mid : String)
    (f : ModuleComputed → ModuleComputed) : List ModuleComputed :=
  (updateFirstModule mods.reverse mid f).reverse

/-- The habitat food/medical upkeep distribution loop
(engine/computeStation.ts lines 264-276): pushes upkeep onto the habitat
module's gross inputs and resets its net inputs to the new gross inputs. -/
def distributeUpkeep (stationModules : List PlanModule) (gameData : GameData)
    (workforceStats : WorkforceStats) (mods : List ModuleComputed) : List ModuleComputed :=
  stationModules.foldl (fun acc pm =>
    if getModuleType pm.blueprintId gameData = some ModuleType.habitat then
      match recordFind? gameData.modules.habitat pm.blueprintId with
      | some habModule =>
        let moduleCapacity := habModule.workforceCapacity * pm.count
        let upkeep := getWorkforceUpkeepForCapacity workforceStats moduleCapacity
        updateLastModule acc pm.id (fun mc =>
          { mc with
            grossInputs := mc.grossInputs ++ upkeep
            netInputs := mc.grossInputs ++ upkeep })
      | none => acc
    else acc) mods

/-- The first workforce pass of `computeStation` (lines 224-238): sum
production workforce requirements and habitat capacities. -/
def stationWorkforceTotals (stationModules : List PlanModule) (gameData : GameData) : ℚ × ℚ :=
  stationModules.foldl (fun acc pm =>
    match getModuleType pm.blueprintId gameData with
    | some ModuleType.production =>
      match recordFind? gameData.modules.production pm.blueprintId with
      | some prodModule => (acc.1 + prodModule.workforceMax * pm.count, acc.2)
      | none => acc
    | some ModuleType.habitat =>
      match recordFind? gameData.modules.habitat pm.blueprintId with
      | some habModule => (acc.1, acc.2 + habModule.workforceCapacity * pm.count)
      | none => acc
    | _ => acc) (0, 0)

/-- Initialize the per-module remaining-output map (lines 292-299): one inner
map per computed module, seeded from its gross outputs. -/
def initModuleQMap2 (mods : List ModuleComputed) (select : ModuleComputed → List ResourceAmount) :
    QMap2 :=
  mods.foldl (fun acc mc =>
    QMap2.set acc mc.moduleId
      ((select mc).foldl (fun m r => QMap.set m r.wareId r.amount) [])) []

/-- Initialize the per-module supplied/exported maps (lines 280-289): one
empty inner map per computed module. -/
def initEmptyQMap2 (mods : List ModuleComputed) : QMap2 :=
  mods.foldl (fun acc mc => QMap2.set acc mc.moduleId []) []

/-- Net I/O recomputation per module after the connection loops
(engine/computeStation.ts lines 482-506). -/
def applyModuleNets (st : StationResolveState) (mods : List ModuleComputed) :
    List ModuleComputed :=
  mods.map (fun mc =>
    let supplied := (QMap2.find? st.supplied mc.moduleId).getD []
    let exported := (QMap2.find? st.exported mc.moduleId).getD []
    { mc with
      netInputs := mc.grossInputs.filterMap (fun input =>
        let remaining := input.amount - QMap.getD supplied input.wareId
        if remaining > 1/100 then some (ResourceAmount.mk input.wareId remaining) else none)
      netOutputs := mc.grossOutputs.filterMap (fun output =>
        let remaining := output.amount - QMap.getD exported output.wareId
        if remaining > 1/100 then some (ResourceAmount.mk output.wareId remaining) else none) })

/-- The per-module gross I/O list of `computeStation` after habitat upkeep
distribution (engine/computeStation.ts lines 247-276). -/
def stationModuleComputeds (station : PlanStation) (gameData : GameData)
    (effectiveSunlight : ℚ) (workforceStats : WorkforceStats) : List ModuleComputed :=
  distributeUpkeep station.modules gameData workforceStats
    (station.modules.map (fun pm =>
      computeModuleIo pm gameData effectiveSunlight workforceStats.workerRatio))

/-- The connection-resolution pipeline of `computeStation` (lines 280-480):
initialize the four per-module maps and run the three connection loops in
order. -/
def stationResolve (moduleConnections : List PlanModuleConnection)
    (mcs1 : List ModuleComputed) : StationResolveState :=
  let st0 : StationResolveState :=
    { remOut := initModuleQMap2 mcs1 (fun mc => mc.grossOutputs)
      remIn := initModuleQMap2 mcs1 (fun mc => mc.grossInputs)
      supplied := initEmptyQMap2 mcs1
      exported := initEmptyQMap2 mcs1
      computeds := [] }
  let st1 := (moduleConnections.filter isM2MConn).foldl processM2MConn st0
  let st2 := (moduleConnections.filter isStationInputConn).foldl processStationInputConn st1
  (moduleConnections.filter isStationOutputConn).foldl processStationOutputConn st2

/-- `computeStation` (engine/computeStation.ts). -/
def computeStation (station : PlanStation) (sectors : List PlanSector) (gameData : GameData) :
    StationComputed :=
  let effectiveSunlight := getEffectiveSunlight station sectors
  let fillHabitats := station.fillHabitats.getD false
  let moduleConnections := station.moduleConnections
  let totals := stationWorkforceTotals station.modules gameData
  let workforceStats := calculateWorkforceStats totals.1 totals.2 fillHabitats
  let mcs1 := stationModuleComputeds station gameData effectiveSunlight workforceStats
  let inputConns := moduleConnections.filter isStationInputConn
  let outputConns := moduleConnections.filter isStationOutputConn
  let st3 := stationResolve moduleConnections mcs1
  let mcs2 := applyModuleNets st3 mcs1
  let grossInputs := aggregateResourcesStation (mcs2.foldl (fun acc mc => acc ++ mc.grossInputs) [])
  let grossOutputs := aggregateResourcesStation (mcs2.foldl (fun acc mc => acc ++ mc.grossOutputs) [])
  let netInputs := aggregateResourcesStation (mcs2.foldl (fun acc mc => acc ++ mc.netInputs) [])
  let netOutputs := aggregateResourcesStation (mcs2.foldl (fun acc mc => acc ++ mc.netOutputs) [])
  let stationInputAmounts := inputConns.map (fun c =>
    match st3.computeds.find? (fun cc => cc.connectionId = c.id) with
    | some cc => ResourceAmount.mk c.wareId cc.effectiveAmount
    | none => ResourceAmount.mk c.wareId c.amount)
  let stationOutputAmounts := outputConns.map (fun c =>
    match st3.computeds.find? (fun cc => cc.connectionId = c.id) with
    | some cc => ResourceAmount.mk c.wareId cc.effectiveAmount
    | none => ResourceAmount.mk c.wareId c.amount)
  let stationInputs := aggregateResourcesStation stationInputAmounts
  let stationOutputs := aggregateResourcesStation stationOutputAmounts
  let connectedImportMap := stationInputs.foldl (fun m si => QMap.set m si.wareId si.amount) []
  let connectedExportMap := stationOutputs.foldl (fun m so => QMap.set m so.wareId so.amount) []
  let availableForImport := netInputs.filterMap (fun ni =>
    let remaining := ni.amount - QMap.getD connectedImportMap ni.wareId
    if remaining > 1/100 then some (ResourceAmount.mk ni.wareId remaining) else none)
  let availableForExport := netOutputs.filterMap (fun no =>
    let remaining := no.amount - QMap.getD connectedExportMap no.wareId
    if remaining > 1/100 then some (ResourceAmount.mk no.wareId remaining) else none)
  { stationId := station.id
    effectiveSunlight := effectiveSunlight
    totalWorkforceRequired := totals.1
    totalWorkforceCapacity := totals.2
    actualPopulation := workforceStats.actualPopulation
    workforceFoodDemand := workforceStats.foodDemand
    workforceMedicalDemand := workforceStats.medicalDemand
    modules := mcs2
    grossInputs := grossInputs
    grossOutputs := grossOutputs
    netInputs := netInputs
    netOutputs := netOutputs
    availableForImport := availableForImport
    availableForExport := availableForExport
    stationInputs := stationInputs
    stationOutputs := stationOutputs
    externallySupplied := []
    externallyConsumed := []
    remainingInputs := stationInputs
    remainingOutputs := stationOutputs
    moduleConnections := st3.computeds }

/-- Mutable state threaded through `computeNetwork`'s inter-station
connection loop (engine/computeNetwork.ts lines 52-153). -/
structure NetState where
  supplied : QMap2
  consumed : QMap2
  remOut : QMap2
  remIn : QMap2
  computeds : List ConnectionComputed

/-- `plan.stations.map(computeStation)` (engine/computeNetwork.ts lines 41-43). -/
def stationComputedsOf (plan : Plan) (gameData : GameData) : List StationComputed :=
  plan.stations.map (fun station => computeStation station plan.sectors gameData)

/-- Initialization of the four per-station maps (engine/computeNetwork.ts
lines 60-82): empty supplied/consumed maps per station, remaining output
seeded from `min(stationOutput, netOutput ?? stationOutput)` and remaining
input from the station inputs. -/
def netInitState (plan : Plan) (scs : List StationComputed) : NetState :=
  let base : QMap2 := plan.stations.foldl (fun acc station => QMap2.set acc station.id []) []
  let remOut := scs.foldl (fun acc sc =>
    QMap2.update acc sc.stationId (fun m =>
      sc.stationOutputs.foldl (fun m output =>
        let netOutput := sc.netOutputs.find? (fun o => o.wareId = output.wareId)
        let available := min output.amount ((netOutput.map (fun o => o.amount)).getD output.amount)
        QMap.set m output.wareId available) m)) base
  let remIn := scs.foldl (fun acc sc =>
    QMap2.update acc sc.stationId (fun m =>
      sc.stationInputs.foldl (fun m input => QMap.set m input.wareId input.amount) m)) base
  { supplied := base
    consumed := base
    remOut := remOut
    remIn := remIn
    computeds := [] }

/-- One iteration of the inter-station connection loop
(engine/computeNetwork.ts lines 87-153). -/
def processNetworkConn (st : NetState) (conn : PlanConnection) : NetState :=
  let mode := conn.mode.getD ConnectionMode.auto
  let sourceAvailable := QMap2.lookD st.remOut conn.sourceStationId conn.wareId
  let targetNeed := QMap2.lookD st.remIn conn.targetStationId conn.wareId
  let r := resolveFlow mode conn.amount sourceAvailable targetNeed
  { supplied := QMap2.update st.supplied conn.targetStationId
      (fun m => QMap.set m conn.wareId (QMap.getD m conn.wareId + r.effectiveAmount))
    consumed := QMap2.update st.consumed conn.sourceStationId
      (fun m => QMap.set m conn.wareId (QMap.getD m conn.wareId + r.effectiveAmount))
    remOut := QMap2.update st.remOut conn.sourceStationId
      (fun m => QMap.set m conn.wareId (sourceAvailable - r.effectiveAmount))
    remIn := QMap2.update st.remIn conn.targetStationId
      (fun m => QMap.set m conn.wareId (targetNeed - r.effectiveAmount))
    computeds := st.computeds ++
      [ConnectionComputed.mk conn.id r.effectiveAmount r.sourceConstrained r.targetConstrained] }

/-- The network flow state after resolving every inter-station connection. -/
def networkFlowState (plan : Plan) (gameData : GameData) : NetState :=
  plan.connections.foldl processNetworkConn
    (netInitState plan (stationComputedsOf plan gameData))

/-- The accumulated externally-supplied amount for a station/ware after all
inter-station connections are resolved (`stationSupplied.get(id)?.get(ware)`
with missing entries read as 0). -/
def suppliedAt (plan : Plan) (gameData : GameData) (stationId wareId : String) : ℚ :=
  QMap2.lookD (networkFlowState plan gameData).supplied stationId wareId

/-- The `findIndex` + reduce-or-splice step of the cascade
(engine/computeNetwork.ts lines 222-232 and 263-273): reduce the first entry
for the ware by `delta`, keeping it only when the reduced value exceeds the
0.01 epsilon; entries for other wares are untouched. -/
def reduceNetEntry (entries : List ResourceAmount) (wareId : String) (delta : ℚ) :
    List ResourceAmount :=
  match entries with
  | [] => []
  | e :: rest =>
    if e.wareId = wareId then
      let newNet := e.amount - delta
      if newNet > 1/100 then ResourceAmount.mk e.wareId newNet :: rest else rest
    else e :: reduceNetEntry rest wareId delta

/-- The supply cascade for one externally supplied ware
(engine/computeNetwork.ts lines 196-234): find the Station-Input→module
connections for the ware, compute `supplyRatio = min(totalSupplied /
totalRequested, 1)` from the stored amounts, and reduce each target module's
net-input entry by `connection.amount * supplyRatio`. -/
def applyInputCascade (moduleConnections : List PlanModuleConnection)
    (mods : List ModuleComputed) (wareId : String) (totalSupplied : ℚ) :
    List ModuleComputed :=
  if totalSupplied < 1/100 then mods
  else
    let inputConnections := moduleConnections.filter (fun c =>
      c.sourceModuleId = STATION_INPUT_ID && c.wareId = wareId)
    if inputConnections.isEmpty then mods
    else
      let totalRequested := inputConnections.foldl (fun sum c => sum + c.amount) 0
      if totalRequested < 1/100 then mods
      else
        let supplyRatio := min (totalSupplied / totalRequested) 1
        inputConnections.foldl (fun acc conn =>
          updateFirstModule acc conn.targetModuleId (fun mc =>
            { mc with netInputs := reduceNetEntry mc.netInputs wareId (conn.amount * supplyRatio) }))
          mods

/-- The consumption cascade for one externally consumed ware
(engine/computeNetwork.ts lines 237-275), symmetric on net outputs via the
module→Station-Output connections. -/
def applyOutputCascade (moduleConnections : List PlanModuleConnection)
    (mods : List ModuleComputed) (wareId : String) (totalConsumed : ℚ) :
    List ModuleComputed :=
  if totalConsumed < 1/100 then mods
  else
    let outputConnections := moduleConnections.filter (fun c =>
      c.targetModuleId = STATION_OUTPUT_ID && c.wareId = wareId)
    if outputConnections.isEmpty then mods
    else
      let totalExported := outputConnections.foldl (fun sum c => sum + c.amount) 0
      if totalExported < 1/100 then mods
      else
        let consumeRatio := min (totalConsumed / totalExported) 1
        outputConnections.foldl (fun acc conn =>
          updateFirstModule acc conn.sourceModuleId (fun mc =>
            { mc with netOutputs := reduceNetEntry mc.netOutputs wareId (conn.amount * consumeRatio) }))
          mods

/-- The per-station finalization loop of `computeNetwork` (lines 156-277):
externally supplied/consumed arrays, remaining inputs/outputs, and the two
cascades onto module nets. -/
def finalizeStation (plan : Plan) (st : NetState) (sc : StationComputed) : StationComputed :=
  let supplied := (QMap2.find? st.supplied sc.stationId).getD []
  let consumed := (QMap2.find? st.consumed sc.stationId).getD []
  let externallySupplied :=
    (supplied.map (fun p => ResourceAmount.mk p.1 p.2)).filter (fun r => r.amount > 1/100)
  let externallyConsumed :=
    (consumed.map (fun p => ResourceAmount.mk p.1 p.2)).filter (fun r => r.amount > 1/100)
  let remainingInputs := sc.stationInputs.filterMap (fun input =>
    let remaining := input.amount - QMap.getD supplied input.wareId
    if remaining > 1/100 then some (ResourceAmount.mk input.wareId remaining) else none)
  let remainingOutputs := sc.stationOutputs.filterMap (fun output =>
    let remaining := output.amount - QMap.getD consumed output.wareId
    if remaining > 1/100 then some (ResourceAmount.mk output.wareId remaining) else none)
  let modules :=
    match plan.stations.find? (fun s => s.id = sc.stationId) with
    | some station =>
      let moduleConnections := station.moduleConnections
      let afterSupply := supplied.foldl (fun mods p =>
        applyInputCascade moduleConnections mods p.1 p.2) sc.modules
      consumed.foldl (fun mods p => applyOutputCascade moduleConnections mods p.1 p.2) afterSupply
    | none => sc.modules
  { sc with
    externallySupplied := externallySupplied
    externallyConsumed := externallyConsumed
    remainingInputs := remainingInputs
    remainingOutputs := remainingOutputs
    modules := modules }

/-- The deficit loop of `computeNetwork` for one station (lines 282-297). -/
def stationDeficitsOf (st : NetState) (sc : StationComputed) : List ResourceDeficit :=
  let supplied := (QMap2.find? st.supplied sc.stationId).getD []
  sc.stationInputs.filterMap (fun input =>
    let suppliedAmount := QMap.getD supplied input.wareId
    if suppliedAmount < input.amount - 1/100 then
      some
        { wareId := input.wareId
          stationId := sc.stationId
          required := input.amount
          supplied := suppliedAmount
          deficit := input.amount - suppliedAmount }
    else none)

/-- The network-totals contribution of one station (lines 304-333). -/
def stationTotalContribution (plan : Plan) (st : NetState) (sc : StationComputed) :
    List ResourceAmount × List ResourceAmount :=
  let supplied := (QMap2.find? st.supplied sc.stationId).getD []
  let netIn := sc.netInputs.filterMap (fun input =>
    let remaining := input.amount - QMap.getD supplied input.wareId
    if remaining > 0 then some (ResourceAmount.mk input.wareId remaining) else none)
  let exported := plan.connections.foldl (fun m conn =>
    if conn.sourceStationId = sc.stationId then
      QMap.set m conn.wareId (QMap.getD m conn.wareId + conn.amount)
    else m) []
  let netOut := sc.netOutputs.filterMap (fun output =>
    let remaining := output.amount - QMap.getD exported output.wareId
    if remaining > 0 then some (ResourceAmount.mk output.wareId remaining) else none)
  (netIn, netOut)

/-- `computeNetwork` (engine/computeNetwork.ts). -/
def computeNetwork (plan : Plan) (gameData : GameData) : NetworkComputed :=
  let scs := stationComputedsOf plan gameData
  let st := networkFlowState plan gameData
  let finalized := scs.map (fun sc => finalizeStation plan st sc)
  let deficits := (finalized.map (fun sc => stationDeficitsOf st sc)).flatten
  let allNetInputs :=
    (finalized.map (fun sc => (stationTotalContribution plan st sc).1)).flatten
  let allNetOutputs :=
    (finalized.map (fun sc => (stationTotalContribution plan st sc).2)).flatten
  { stations := finalized
    connections := st.computeds
    totalInputs := aggregateResourcesNetwork allNetInputs
    totalOutputs := aggregateResourcesNetwork allNetOutputs
    deficits := deficits }

/-- `getConnectionComputed` (engine/computeNetwork.ts). -/
def getConnectionComputed (network : NetworkComputed) (connectionId : String) :
    Option ConnectionComputed :=
  network.connections.find? (fun c => c.connectionId = connectionId)

/-- `getStationComputed` (engine/computeNetwork.ts). -/
def getStationComputed (network : NetworkComputed) (stationId : String) :
    Option StationComputed :=
  network.stations.find? (fun s => s.stationId = stationId)

/-- `getStationDeficits` (engine/computeNetwork.ts). -/
def getStationDeficits (network : NetworkComputed) (stationId : String) :
    List ResourceDeficit :=
  network.deficits.filter (fun d => d.stationId = stationId)

/-- `getStationDeficitCount` (engine/computeNetwork.ts). -/
def getStationDeficitCount (network : NetworkComputed) (stationId : String) : ℕ :=
  (network.deficits.filter (fun d => d.stationId = stationId)).length

/-- All amounts in a resource list are nonnegative. -/
def amountsNonneg (l : List ResourceAmount) : Prop := ∀ r ∈ l, 0 ≤ r.amount

/-- All values of a ware map are nonnegative. -/
def QMap.Nonneg (m : QMap) : Prop := ∀ p ∈ m, (0:ℚ) ≤ p.2

/-- All values of all inner maps are nonnegative. -/
def QMap2.Nonneg (m : QMap2) : Prop := ∀ p ∈ m, QMap.Nonneg p.2

/-- The remaining-output and remaining-input maps of the network state hold
only nonnegative values. -/
def NetState.RemNonneg (st : NetState) : Prop := QMap2.Nonneg st.remOut ∧ QMap2.Nonneg st.remIn

/-- The remaining-output and remaining-input maps of the station state hold
only nonnegative values. -/
def StationResolveState.RemNonneg (st : StationResolveState) : Prop :=
  QMap2.Nonneg st.remOut ∧ QMap2.Nonneg st.remIn

/-- A module's net lists are epsilon-floored and dominated by its gross
lists: every net entry exceeds 0.01 and is bounded by a gross entry for the
same ware. -/
def ModuleNetsOk (mc : ModuleComputed) : Prop :=
  (∀ n ∈ mc.netInputs, (1:ℚ)/100 < n.amount ∧
    ∃ g ∈ mc.grossInputs, g.wareId = n.wareId ∧ n.amount ≤ g.amount) ∧
  (∀ n ∈ mc.netOutputs, (1:ℚ)/100 < n.amount ∧
    ∃ g ∈ mc.grossOutputs, g.wareId = n.wareId ∧ n.amount ≤ g.amount)

/-- A module's gross input and output amounts are nonnegative. -/
def GrossNonneg (mc : ModuleComputed) : Prop :=
  amountsNonneg mc.grossInputs ∧ amountsNonneg mc.grossOutputs

/-- All four maps of the station-resolve state hold only nonnegative
values. -/
def StationResolveState.AllNonneg (st : StationResolveState) : Prop :=
  QMap2.Nonneg st.remOut ∧ QMap2.Nonneg st.remIn ∧
  QMap2.Nonneg st.supplied ∧ QMap2.Nonneg st.exported

/-- Nonnegativity conditions on a catalog: recipe cycle times are positive
and every other numeric field is nonnegative. -/
def GameData.Nonneg (g : GameData) : Prop :=
  (∀ p ∈ g.recipes, 0 < p.2.time ∧ 0 ≤ p.2.amount ∧ 0 ≤ p.2.workforceBonus ∧
    ∀ i ∈ p.2.inputs, 0 ≤ i.amount) ∧
  (∀ p ∈ g.modules.production, 0 ≤ p.2.workforceMax) ∧
  (∀ p ∈ g.modules.habitat, 0 ≤ p.2.workforceCapacity)

/-- Nonnegativity conditions on a plan: module counts, stored connection
amounts (both levels) and sunlight data are nonnegative. -/
def Plan.Nonneg (p : Plan) : Prop :=
  (∀ st ∈ p.stations,
    (∀ m ∈ st.modules, 0 ≤ m.count) ∧
    (∀ c ∈ st.moduleConnections, 0 ≤ c.amount) ∧
    0 ≤ st.sunlightOverride.getD 0) ∧
  (∀ c ∈ p.connections, 0 ≤ c.amount) ∧
  (∀ s ∈ p.sectors, 0 ≤ s.sunlight)

/-- Origin `{x := 0, y := 0}` used by the concrete scenarios. -/
def v0 : Vec2 := ⟨0, 0⟩

/-- Catalog for the concrete scenarios: a widget factory consuming 100 ore/hr
and an ore producer yielding 60 ore/hr, both with zero workforce. -/
def gdScenario : GameData :=
  { wares := []
    recipes := [("widgets_default",
                  ⟨"widgets_default", "widgets", "default", 3600, 1, [⟨"ore", 100⟩], 0⟩),
                ("ore_default", ⟨"ore_default", "ore", "default", 3600, 60, [], 0⟩)]
    modules := ⟨[("prodA", ⟨"prodA", "Widget Factory", "widgets", 0⟩),
                 ("prodB", ⟨"prodB", "Ore Mine", "ore", 0⟩)], [], []⟩
    sectors := [] }

/-- Station A of the deficit scenario: one widget factory needing 100 ore/hr,
wired to Station Input for 100 ore/hr. -/
def stationA : PlanStation :=
  { id := "A", name := "Station A", sectorId := none, position := v0,
    sunlightOverride := none,
    modules := [⟨"mA", "prodA", 1, v0, none, none⟩],
    moduleConnections :=
      [⟨"mcA", STATION_INPUT_ID, "mA", "ore", 100, some ConnectionMode.auto, none, none⟩],
    fillHabitats := none, outputOrder := none, inputOrder := none,
    stationInputPosition := none, stationOutputPosition := none }

/-- Station B of the deficit scenario: one ore mine producing 60 ore/hr,
wired to Station Output. -/
def stationB : PlanStation :=
  { id := "B", name := "Station B", sectorId := none, position := v0,
    sunlightOverride := none,
    modules := [⟨"mB", "prodB", 1, v0, none, none⟩],
    moduleConnections :=
      [⟨"mcB", "mB", STATION_OUTPUT_ID, "ore", 60, some ConnectionMode.auto, none, none⟩],
    fillHabitats := none, outputOrder := none, inputOrder := none,
    stationInputPosition := none, stationOutputPosition := none }

/-- The deficit scenario plan: B supplies A with 60 of the 100 ore/hr that A
is wired to import. -/
def scenarioPlan : Plan :=
  { id := "p", name := "scenario", version := 1, createdAt := "", updatedAt := "",
    sectors := [], stations := [stationA, stationB],
    connections := [⟨"c1", "B", "A", "ore", 60, some ConnectionMode.auto, none⟩] }

/-- Station with a custom module connection of negative stored amount coming
from a nonexistent source module. -/
def stationS : PlanStation :=
  { id := "S", name := "Station S", sectorId := none, position := v0,
    sunlightOverride := none,
    modules := [⟨"m1", "prodA", 1, v0, none, none⟩],
    moduleConnections :=
      [⟨"cx", "ghost", "m1", "ore", -5, some ConnectionMode.custom, none, none⟩],
    fillHabitats := none, outputOrder := none, inputOrder := none,
    stationInputPosition := none, stationOutputPosition := none }

/-- Plan containing only `stationS`. -/
def c5Plan : Plan :=
  { id := "p5", name := "c5", version := 1, createdAt := "", updatedAt := "",
    sectors := [], stations := [stationS], connections := [] }

/-- A module connection running directly from the Station Input sentinel to
the Station Output sentinel. -/
def bothSentinelConn : PlanModuleConnection :=
  ⟨"c9", STATION_INPUT_ID, STATION_OUTPUT_ID, "ore", 5, none, none, none⟩

/-- Station holding only `bothSentinelConn`. -/
def c9Station : PlanStation :=
  { id := "S9", name := "Station S9", sectorId := none, position := v0,
    sunlightOverride := none, modules := [],
    moduleConnections := [bothSentinelConn],
    fillHabitats := none, outputOrder := none, inputOrder := none,
    stationInputPosition := none, stationOutputPosition := none }

/-- Two computed modules requesting 100 and 300 of ware `w`. -/
def modsC1 : List ModuleComputed :=
  [⟨"m1", "b", [⟨"w", 100⟩], [], [⟨"w", 100⟩], []⟩,
   ⟨"m2", "b", [⟨"w", 300⟩], [], [⟨"w", 300⟩], []⟩]

/-- Station-Input connections requesting 100 and 300 of ware `w` for the two
modules of `modsC1`. -/
def connsC1 : List PlanModuleConnection :=
  [⟨"i1", STATION_INPUT_ID, "m1", "w", 100, some ConnectionMode.auto, none, none⟩,
   ⟨"i2", STATION_INPUT_ID, "m2", "w", 300, some ConnectionMode.auto, none, none⟩]

/-- The Station-Input→module connection of `stationA`. -/
def mcAConn : PlanModuleConnection :=
  ⟨"mcA", STATION_INPUT_ID, "mA", "ore", 100, some ConnectionMode.auto, none, none⟩

/-- A small network state with nonnegative remaining maps, used to witness
the dangling-reference theorem: only station "T" exists. -/
def c8NetState : NetState :=
  { supplied := [("T", [])]
    consumed := [("T", [])]
    remOut := [("T", [("ore", 7)])]
    remIn := [("T", [("ore", 9)])]
    computeds := [] }

/-- An inter-station connection whose source station "ghost" does not exist
in `c8NetState`. -/
def c8Conn : PlanConnection :=
  ⟨"c8", "ghost", "T", "ore", 4, some ConnectionMode.auto, none⟩

/-- A small station-resolve state: only module "M" exists. -/
def c8StationState : StationResolveState :=
  { remOut := [("M", [("ore", 7)])]
    remIn := [("M", [("ore", 9)])]
    supplied := [("M", [])]
    exported := [("M", [])]
    computeds := [] }

/-- A module connection whose source module "ghost" does not exist in
`c8StationState`. -/
def c8ModuleConn : PlanModuleConnection :=
  ⟨"c8m", "ghost", "M", "ore", 4, some ConnectionMode.auto, none, none⟩

/-! ## Generic helper lemmas -/

theorem foldl_preserves {α σ : Type _} (P : σ → Prop) (step : σ → α → σ)
    (l : List α) (s : σ) (h : P s)
    (hstep : ∀ s a, a ∈ l → P s → P (step s a)) : P (l.foldl step s) := by
  induction l generalizing s with
  | nil => exact h
  | cons a rest ih =>
    exact ih (step s a) (hstep s a (by simp) h)
      (fun s b hb hs => hstep s b (by simp [hb]) hs)

theorem QMap.find?_eq_some_mem {m : QMap} {k : String} {v : ℚ}
    (h : QMap.find? m k = some v) : (k, v) ∈ m := by
  unfold QMap.find? at h
  rcases Option.map_eq_some'.mp h with ⟨p, hp, hv⟩
  have hk := List.find?_some hp
  have hm := List.mem_of_find?_eq_some hp
  have : p.1 = k := by simpa using hk
  cases p
  simp_all

theorem QMap.getD_nonneg {m : QMap} (h : QMap.Nonneg m) (k : String) :
    0 ≤ QMap.getD m k := by
  unfold QMap.getD
  cases hf : QMap.find? m k with
  | none => simp
  | some v => simpa using h _ (QMap.find?_eq_some_mem hf)

theorem QMap.Nonneg_set {m : QMap} (h : QMap.Nonneg m) {k : String} {v : ℚ}
    (hv : 0 ≤ v) : QMap.Nonneg (QMap.set m k v) := by
  induction m with
  | nil => intro p hp; simp [QMap.set] at hp; simp [hp, hv]
  | cons q rest ih =>
    intro p hp
    simp only [QMap.set] at hp
    by_cases hq : q.1 = k
    · simp [hq] at hp
      rcases hp with hp | hp
      · simp [hp, hv]
      · exact h p (by simp [hp])
    · simp [hq] at hp
      rcases hp with hp | hp
      · exact h p (by simp [hp])
      · exact ih (fun r hr => h r (by simp [hr])) p hp

theorem QMap2.find?_some_mem {m : QMap2} {k : String} {v : QMap}
    (h : QMap2.find? m k = some v) : (k, v) ∈ m := by
  unfold QMap2.find? at h
  rcases Option.map_eq_some'.mp h with ⟨p, hp, hv⟩
  have hk := List.find?_some hp
  have hm := List.mem_of_find?_eq_some hp
  have : p.1 = k := by simpa using hk
  cases p
  simp_all

theorem QMap2.lookD_nonneg {m : QMap2} (h : QMap2.Nonneg m) (k w : String) :
    0 ≤ QMap2.lookD m k w := by
  unfold QMap2.lookD
  cases hf : QMap2.find? m k with
  | none => simp [QMap.getD, QMap.find?]
  | some mm =>
    exact QMap.getD_nonneg (by simpa using h _ (QMap2.find?_some_mem hf)) w

theorem QMap2.set_Nonneg {m : QMap2} (h : QMap2.Nonneg m) {k : String} {v : QMap}
    (hv : QMap.Nonneg v) : QMap2.Nonneg (QMap2.set m k v) := by
  induction m with
  | nil => intro p hp; simp [QMap2.set] at hp; simp [hp]; exact fun q hq => hv q hq
  | cons q rest ih =>
    intro p hp
    simp only [QMap2.set] at hp
    by_cases hq : q.1 = k
    · simp [hq] at hp
      rcases hp with hp | hp
      · subst hp; exact fun r hr => hv r hr
      · exact h p (by simp [hp])
    · simp [hq] at hp
      rcases hp with hp | hp
      · exact h p (by simp [hp])
      · exact ih (fun r hr => h r (by simp [hr])) p hp

theorem QMap2.Nonneg_update {m : QMap2} (h : QMap2.Nonneg m) {k : String}
    {f : QMap → QMap} (hf : ∀ mm, QMap.Nonneg mm → QMap.Nonneg (f mm)) :
    QMap2.Nonneg (QMap2.update m k f) := by
  induction m with
  | nil => intro p hp; simp [QMap2.update] at hp
  | cons q rest ih =>
    intro p hp
    simp only [QMap2.update] at hp
    by_cases hq : q.1 = k
    · simp [hq] at hp
      rcases hp with hp | hp
      · subst hp; exact hf q.2 (h q (by simp))
      · exact h p (by simp [hp])
    · simp [hq] at hp
      rcases hp with hp | hp
      · exact h p (by simp [hp])
      · exact ih (fun r hr => h r (by simp [hr])) p hp

theorem insertDesc_mem {x a : ResourceAmount} {l : List ResourceAmount} :
    a ∈ insertDesc x l ↔ a = x ∨ a ∈ l := by
  induction l with
  | nil => simp [insertDesc]
  | cons y rest ih =>
    simp only [insertDesc]
    by_cases hxy : x.amount > y.amount
    · simp [if_pos hxy]
    · simp [if_neg hxy, ih]
      tauto

theorem sortByAmountDesc_mem {a : ResourceAmount} {l : List ResourceAmount} :
    a ∈ sortByAmountDesc l ↔ a ∈ l := by
  induction l with
  | nil => simp [sortByAmountDesc]
  | cons x rest ih => simp [sortByAmountDesc, insertDesc_mem, ih]

theorem aggregateResourcesStation_gt_eps {l : List ResourceAmount} {r : ResourceAmount}
    (h : r ∈ aggregateResourcesStation l) : (1:ℚ)/100 < r.amount := by
  unfold aggregateResourcesStation at h
  rw [sortByAmountDesc_mem] at h
  have := List.mem_filter.mp h
  simpa using this.2

theorem QMap.find?_nil (k : String) : QMap.find? [] k = none := rfl

theorem QMap.find?_cons_of_ne {p : String × ℚ} {k : String} (h : ¬p.1 = k) (m : QMap) :
    QMap.find? (p :: m) k = QMap.find? m k := by
  unfold QMap.find?
  rw [List.find?_cons_of_neg _ (by simpa using h)]

theorem QMap.find?_cons_of_eq {p : String × ℚ} {k : String} (h : p.1 = k) (m : QMap) :
    QMap.find? (p :: m) k = some p.2 := by
  unfold QMap.find?
  rw [List.find?_cons_of_pos _ (by simpa using h)]
  rfl

theorem QMap.find?_set (m : QMap) (k : String) (v : ℚ) (k' : String) :
    QMap.find? (QMap.set m k v) k' = if k' = k then some v else QMap.find? m k' := by
  induction m with
  | nil =>
    by_cases h : k' = k
    · subst h
      rw [if_pos rfl]
      exact QMap.find?_cons_of_eq rfl []
    · rw [if_neg h, QMap.find?_nil]
      show QMap.find? [(k, v)] k' = none
      rw [QMap.find?_cons_of_ne (Ne.symm h) [], QMap.find?_nil]
  | cons p rest ih =>
    show QMap.find? (if p.1 = k then (k, v) :: rest else p :: QMap.set rest k v) k' = _
    by_cases hp : p.1 = k
    · rw [if_pos hp]
      by_cases h : k' = k
      · subst h
        rw [if_pos rfl, QMap.find?_cons_of_eq rfl]
      · rw [if_neg h, QMap.find?_cons_of_ne (p := (k, v)) (Ne.symm h),
          QMap.find?_cons_of_ne (p := p) (fun hh => h (hp ▸ hh).symm)]
    · rw [if_neg hp]
      by_cases hpk : p.1 = k'
      · have h : ¬(k' = k) := fun hh => hp (hh ▸ hpk)
        rw [if_neg h, QMap.find?_cons_of_eq hpk, QMap.find?_cons_of_eq hpk]
      · rw [QMap.find?_cons_of_ne hpk, QMap.find?_cons_of_ne hpk, ih]

theorem QMap.getD_set (m : QMap) (k : String) (v : ℚ) (k' : String) :
    QMap.getD (QMap.set m k v) k' = if k' = k then v else QMap.getD m k' := by
  unfold QMap.getD
  rw [QMap.find?_set]
  by_cases h : k' = k <;> simp [h]

theorem QMap2.find?_empty (k : String) : QMap2.find? [] k = none := rfl

theorem QMap2.find?_cons_ne {p : String × QMap} {k : String} (h : ¬p.1 = k) (m : QMap2) :
    QMap2.find? (p :: m) k = QMap2.find? m k := by
  unfold QMap2.find?
  rw [List.find?_cons_of_neg _ (by simpa using h)]

theorem QMap2.find?_cons_eq {p : String × QMap} {k : String} (h : p.1 = k) (m : QMap2) :
    QMap2.find? (p :: m) k = some p.2 := by
  unfold QMap2.find?
  rw [List.find?_cons_of_pos _ (by simpa using h)]
  rfl

theorem QMap2.update_of_find?_none {m : QMap2} {k : String} (f : QMap → QMap)
    (h : QMap2.find? m k = none) : QMap2.update m k f = m := by
  induction m with
  | nil => rfl
  | cons p rest ih =>
    by_cases hp : p.1 = k
    · rw [QMap2.find?_cons_eq hp] at h
      exact absurd h (by simp)
    · rw [QMap2.find?_cons_ne hp] at h
      show (if p.1 = k then (p.1, f p.2) :: rest else p :: QMap2.update rest k f) = _
      rw [if_neg hp, ih h]

theorem QMap2.find?_update (m : QMap2) (k : String) (f : QMap → QMap) (k' : String) :
    QMap2.find? (QMap2.update m k f) k' =
      if k' = k then (QMap2.find? m k).map f else QMap2.find? m k' := by
  induction m with
  | nil =>
    by_cases h : k' = k <;> simp [QMap2.update, QMap2.find?_empty, h]
  | cons p rest ih =>
    show QMap2.find? (if p.1 = k then (p.1, f p.2) :: rest else p :: QMap2.update rest k f) k' = _
    by_cases hp : p.1 = k
    · rw [if_pos hp]
      by_cases h : k' = k
      · subst h
        rw [if_pos rfl, QMap2.find?_cons_eq (p := (p.1, f p.2)) hp,
          QMap2.find?_cons_eq hp]
        rfl
      · rw [if_neg h,
          QMap2.find?_cons_ne (p := (p.1, f p.2)) (fun hh => h (hp ▸ hh).symm),
          QMap2.find?_cons_ne (p := p) (fun hh => h (hp ▸ hh).symm)]
    · rw [if_neg hp]
      by_cases hpk : p.1 = k'
      · have h : ¬(k' = k) := fun hh => hp (hh ▸ hpk)
        rw [if_neg h, QMap2.find?_cons_eq hpk, QMap2.find?_cons_eq hpk]
      · rw [QMap2.find?_cons_ne hpk, QMap2.find?_cons_ne hp,
          QMap2.find?_cons_ne hpk, ih]

theorem QMap2.lookD_update_set_value (m : QMap2) (k w : String) (v : ℚ)
    (hv : v = QMap2.lookD m k w) (k' w' : String) :
    QMap2.lookD (QMap2.update m k (fun mm => QMap.set mm w v)) k' w' =
      QMap2.lookD m k' w' := by
  cases hf : QMap2.find? m k with
  | none => rw [QMap2.update_of_find?_none _ hf]
  | some mm =>
    unfold QMap2.lookD
    rw [QMap2.find?_update]
    by_cases h : k' = k
    · subst h
      rw [if_pos rfl, hf]
      simp only [Option.map_some', Option.getD_some]
      rw [QMap.getD_set]
      by_cases hw : w' = w
      · subst hw
        rw [if_pos rfl, hv]
        unfold QMap2.lookD
        rw [hf]
        simp
      · rw [if_neg hw]
    · rw [if_neg h]

theorem resolveFlow_le (mode : ConnectionMode) (a sA tN : ℚ) :
    (resolveFlow mode a sA tN).effectiveAmount ≤ sA ∧
    (resolveFlow mode a sA tN).effectiveAmount ≤ tN := by
  cases mode with
  | custom =>
    exact ⟨le_trans (min_le_right _ _) (min_le_left _ _),
           le_trans (min_le_right _ _) (min_le_right _ _)⟩
  | max => exact ⟨min_le_left _ _, min_le_right _ _⟩
  | auto => exact ⟨min_le_left _ _, min_le_right _ _⟩

theorem resolveFlow_nonneg {mode : ConnectionMode} {a sA tN : ℚ}
    (ha : 0 ≤ a) (hs : 0 ≤ sA) (ht : 0 ≤ tN) :
    0 ≤ (resolveFlow mode a sA tN).effectiveAmount := by
  cases mode with
  | custom => exact le_min ha (le_min hs ht)
  | max => exact le_min hs ht
  | auto => exact le_min hs ht

theorem resolveFlow_eff_zero_left {mode : ConnectionMode} {a tN : ℚ}
    (hok : mode ≠ ConnectionMode.custom ∨ 0 ≤ a) (ht : 0 ≤ tN) :
    (resolveFlow mode a 0 tN).effectiveAmount = 0 := by
  cases mode with
  | custom =>
    rcases hok with hok | hok
    · exact absurd rfl hok
    · simp [resolveFlow, min_eq_left ht, min_eq_right hok]
  | max => simp [resolveFlow, min_eq_left ht]
  | auto => simp [resolveFlow, min_eq_left ht]

theorem resolveFlow_eff_zero_right {mode : ConnectionMode} {a sA : ℚ}
    (hok : mode ≠ ConnectionMode.custom ∨ 0 ≤ a) (hs : 0 ≤ sA) :
    (resolveFlow mode a sA 0).effectiveAmount = 0 := by
  cases mode with
  | custom =>
    rcases hok with hok | hok
    · exact absurd rfl hok
    · simp [resolveFlow, min_eq_right hs, min_eq_right hok]
  | max => simp [resolveFlow, min_eq_right hs]
  | auto => simp [resolveFlow, min_eq_right hs]

theorem updateFirstModule_mem {mods : List ModuleComputed} {mid : String}
    {f : ModuleComputed → ModuleComputed} {mc' : ModuleComputed}
    (h : mc' ∈ updateFirstModule mods mid f) : mc' ∈ mods ∨ ∃ mc ∈ mods, mc' = f mc := by
  induction mods with
  | nil => simp [updateFirstModule] at h
  | cons mc rest ih =>
    simp only [updateFirstModule] at h
    by_cases hm : mc.moduleId = mid
    · rw [if_pos hm] at h
      rcases List.mem_cons.mp h with h | h
      · exact Or.inr ⟨mc, by simp, h⟩
      · exact Or.inl (by simp [h])
    · rw [if_neg hm] at h
      rcases List.mem_cons.mp h with h | h
      · exact Or.inl (by simp [h])
      · rcases ih h with h | ⟨mc0, hmc0, he⟩
        · exact Or.inl (by simp [h])
        · exact Or.inr ⟨mc0, by simp [hmc0], he⟩

theorem updateFirstModule_find_eq (mods : List ModuleComputed) (mid : String)
    (f : ModuleComputed → ModuleComputed) (hf : ∀ mc, (f mc).moduleId = mc.moduleId) :
    (updateFirstModule mods mid f).find? (fun mc => mc.moduleId = mid) =
      (mods.find? (fun mc => mc.moduleId = mid)).map f := by
  induction mods with
  | nil => simp [updateFirstModule]
  | cons mc rest ih =>
    by_cases hm : mc.moduleId = mid
    · simp only [updateFirstModule, if_pos hm]
      rw [List.find?_cons_of_pos _ (by simp [hf, hm]),
        List.find?_cons_of_pos _ (by simp [hm])]
      simp
    · simp only [updateFirstModule, if_neg hm]
      rw [List.find?_cons_of_neg _ (by simp [hm]),
        List.find?_cons_of_neg _ (by simp [hm]), ih]

theorem updateFirstModule_find_ne (mods : List ModuleComputed) (mid mid2 : String)
    (f : ModuleComputed → ModuleComputed) (hf : ∀ mc, (f mc).moduleId = mc.moduleId)
    (hne : mid ≠ mid2) :
    (updateFirstModule mods mid2 f).find? (fun mc => mc.moduleId = mid) =
      mods.find? (fun mc => mc.moduleId = mid) := by
  induction mods with
  | nil => simp [updateFirstModule]
  | cons mc rest ih =>
    by_cases hm : mc.moduleId = mid2
    · simp only [updateFirstModule, if_pos hm]
      have h1 : ¬((f mc).moduleId = mid) := by
        rw [hf, hm]; exact fun hh => hne hh.symm
      have h2 : ¬(mc.moduleId = mid) := by
        rw [hm]; exact fun hh => hne hh.symm
      rw [List.find?_cons_of_neg _ (by simp [h1]),
        List.find?_cons_of_neg _ (by simp [h2])]
    · simp only [updateFirstModule, if_neg hm]
      by_cases h2 : mc.moduleId = mid
      · rw [List.find?_cons_of_pos _ (by simp [h2]),
          List.find?_cons_of_pos _ (by simp [h2])]
      · rw [List.find?_cons_of_neg _ (by simp [h2]),
          List.find?_cons_of_neg _ (by simp [h2]), ih]

theorem reduceNetEntry_gt_eps {l : List ResourceAmount} {w : String} {delta : ℚ}
    (h : ∀ n ∈ l, (1:ℚ)/100 < n.amount) :
    ∀ n ∈ reduceNetEntry l w delta, (1:ℚ)/100 < n.amount := by
  induction l with
  | nil => simp [reduceNetEntry]
  | cons e rest ih =>
    intro n hn
    simp only [reduceNetEntry] at hn
    by_cases he : e.wareId = w
    · rw [if_pos he] at hn
      by_cases hkeep : e.amount - delta > 1/100
      · rw [if_pos hkeep] at hn
        rcases List.mem_cons.mp hn with hn | hn
        · rw [hn]
          exact hkeep
        · exact h n (by simp [hn])
      · rw [if_neg hkeep] at hn
        exact h n (by simp [hn])
    · rw [if_neg he] at hn
      rcases List.mem_cons.mp hn with hn | hn
      · exact h n (by simp [hn])
      · exact ih (fun m hm => h m (by simp [hm])) n hn

theorem reduceNetEntry_dominated {l : List ResourceAmount} {w : String} {delta : ℚ}
    (hd : 0 ≤ delta) :
    ∀ n ∈ reduceNetEntry l w delta, ∃ n0 ∈ l, n0.wareId = n.wareId ∧ n.amount ≤ n0.amount := by
  induction l with
  | nil => simp [reduceNetEntry]
  | cons e rest ih =>
    intro n hn
    simp only [reduceNetEntry] at hn
    by_cases he : e.wareId = w
    · rw [if_pos he] at hn
      by_cases hkeep : e.amount - delta > 1/100
      · rw [if_pos hkeep] at hn
        rcases List.mem_cons.mp hn with hn | hn
        · exact ⟨e, by simp, by rw [hn], by rw [hn]; exact sub_le_self _ hd⟩
        · exact ⟨n, by simp [hn], rfl, le_refl _⟩
      · rw [if_neg hkeep] at hn
        exact ⟨n, by simp [hn], rfl, le_refl _⟩
    · rw [if_neg he] at hn
      rcases List.mem_cons.mp hn with hn | hn
      · exact ⟨n, by simp [hn], rfl, le_refl _⟩
      · rcases ih n hn with ⟨n0, hn0, hw, hle⟩
        exact ⟨n0, by simp [hn0], hw, hle⟩

theorem reduceNetEntry_find {l : List ResourceAmount} {w : String} {delta : ℚ}
    {e : ResourceAmount} (h : l.find? (fun r => r.wareId = w) = some e) :
    ((1:ℚ)/100 < e.amount - delta →
      (reduceNetEntry l w delta).find? (fun r => r.wareId = w) =
        some (ResourceAmount.mk w (e.amount - delta))) ∧
    ((l.map (fun r => r.wareId)).Nodup → e.amount - delta ≤ 1/100 →
      (reduceNetEntry l w delta).find? (fun r => r.wareId = w) = none) := by
  induction l with
  | nil => simp at h
  | cons r rest ih =>
    by_cases hr : r.wareId = w
    · rw [List.find?_cons_of_pos _ (by simp [hr])] at h
      have he : r = e := by injection h
      subst he
      constructor
      · intro hkeep
        simp only [reduceNetEntry, if_pos hr, if_pos hkeep]
        rw [List.find?_cons_of_pos _ (by simp [hr])]
        rw [hr]
      · intro hnd hdrop
        simp only [reduceNetEntry, if_pos hr, if_neg (not_lt.mpr hdrop)]
        apply List.find?_eq_none.mpr
        intro x hx
        have hnd2 : (∀ x ∈ rest, ¬x.wareId = r.wareId) ∧
            (rest.map (fun r => r.wareId)).Nodup := by simpa using hnd
        simp only [decide_eq_true_eq]
        intro hxw
        exact hnd2.1 x hx (by rw [hxw, hr])
    · rw [List.find?_cons_of_neg _ (by simp [hr])] at h
      have hrec := ih h
      constructor
      · intro hkeep
        simp only [reduceNetEntry, if_neg hr]
        rw [List.find?_cons_of_neg _ (by simp [hr])]
        exact hrec.1 hkeep
      · intro hnd hdrop
        simp only [reduceNetEntry, if_neg hr]
        rw [List.find?_cons_of_neg _ (by simp [hr])]
        have hnd2 : (∀ x ∈ rest, ¬x.wareId = r.wareId) ∧
            (rest.map (fun r => r.wareId)).Nodup := by simpa using hnd
        exact hrec.2 (by simpa using hnd2.2) hdrop

theorem foldl_cascade_find_untargeted (conns : List PlanModuleConnection)
    (F : PlanModuleConnection → ModuleComputed → ModuleComputed)
    (hF : ∀ c mc, (F c mc).moduleId = mc.moduleId) (mid : String)
    (h : ∀ c ∈ conns, c.targetModuleId ≠ mid) :
    ∀ mods : List ModuleComputed,
      ((conns.foldl (fun acc c => updateFirstModule acc c.targetModuleId (F c)) mods).find?
        (fun mc => mc.moduleId = mid)) = mods.find? (fun mc => mc.moduleId = mid) := by
  induction conns with
  | nil => intro mods; rfl
  | cons c rest ih =>
    intro mods
    rw [List.foldl_cons, ih (fun c2 hc2 => h c2 (by simp [hc2]))]
    exact updateFirstModule_find_ne mods mid c.targetModuleId (F c) (hF c)
      (fun hh => h c (by simp) hh.symm)

theorem foldl_cascade_find_single
    (F : PlanModuleConnection → ModuleComputed → ModuleComputed)
    (hF : ∀ c mc, (F c mc).moduleId = mc.moduleId) (mid : String)
    (c : PlanModuleConnection) (hct : c.targetModuleId = mid) :
    ∀ conns : List PlanModuleConnection, c ∈ conns →
      conns.countP (fun c2 => c2.targetModuleId = mid) = 1 →
      ∀ mods : List ModuleComputed,
        ((conns.foldl (fun acc c => updateFirstModule acc c.targetModuleId (F c)) mods).find?
          (fun mc => mc.moduleId = mid)) =
          (mods.find? (fun mc => mc.moduleId = mid)).map (F c) := by
  intro conns
  induction conns with
  | nil => intro hc; simp at hc
  | cons c' rest ih =>
    intro hc hcount mods
    rw [List.countP_cons] at hcount
    by_cases hc' : c'.targetModuleId = mid
    · have hz : rest.countP (fun c2 => decide (c2.targetModuleId = mid)) = 0 := by
        rw [if_pos (by simpa using hc')] at hcount
        omega
      have hrest0 : ∀ c2 ∈ rest, c2.targetModuleId ≠ mid := by
        intro c2 h2
        have := List.countP_eq_zero.mp hz c2 h2
        simpa using this
      have hcc : c = c' := by
        rcases List.mem_cons.mp hc with h | h
        · exact h
        · exact absurd hct (hrest0 c h)
      subst hcc
      rw [List.foldl_cons, foldl_cascade_find_untargeted rest F hF mid hrest0]
      rw [hct]
      exact updateFirstModule_find_eq mods mid (F c) (hF c)
    · have hcrest : c ∈ rest := by
        rcases List.mem_cons.mp hc with h | h
        · exact absurd (h ▸ hct) hc'
        · exact h
      have hcount' : rest.countP (fun c2 => decide (c2.targetModuleId = mid)) = 1 := by
        rw [if_neg (by simpa using hc')] at hcount
        omega
      rw [List.foldl_cons, ih hcrest hcount']
      rw [updateFirstModule_find_ne mods mid c'.targetModuleId (F c') (hF c')
        (fun hh => hc' (hh.symm))]

/-- C1: proportional cascade of external supply.  For any module list,
Station-Input connection list and ware, when the accumulated external supply
is at least the 0.01 epsilon, the Station-Input→module connections for the
ware are nonempty with total stored request at least epsilon, and a module is
targeted by exactly one such connection `c`, the cascade rewrites that
module's netInputs by reducing its entry for the ware by exactly
`c.amount * min(totalSupplied / totalRequested, 1)`, removing the entry when
the reduced value drops to or below 0.01. -/
theorem cascade_supply_proportional
    (moduleConnections : List PlanModuleConnection) (mods : List ModuleComputed)
    (w : String) (totalSupplied : ℚ) (mc : ModuleComputed) (c : PlanModuleConnection)
    (inputConns : List PlanModuleConnection)
    (hic : inputConns = moduleConnections.filter
      (fun c2 => c2.sourceModuleId = STATION_INPUT_ID && c2.wareId = w))
    (totalRequested : ℚ)
    (htr : totalRequested = inputConns.foldl (fun s c2 => s + c2.amount) 0)
    (hts : (1:ℚ)/100 ≤ totalSupplied)
    (htr1 : (1:ℚ)/100 ≤ totalRequested)
    (hcmem : c ∈ inputConns)
    (hcount : inputConns.countP (fun c2 => c2.targetModuleId = c.targetModuleId) = 1)
    (hfind : mods.find? (fun m => m.moduleId = c.targetModuleId) = some mc) :
    ((applyInputCascade moduleConnections mods w totalSupplied).find?
        (fun m => m.moduleId = c.targetModuleId)) =
      some { mc with netInputs :=
          reduceNetEntry mc.netInputs w (c.amount * min (totalSupplied / totalRequested) 1) } ∧
    (∀ mc', ((applyInputCascade moduleConnections mods w totalSupplied).find?
        (fun m => m.moduleId = c.targetModuleId)) = some mc' →
      ∀ e, mc.netInputs.find? (fun r => r.wareId = w) = some e →
        ((1:ℚ)/100 < e.amount - c.amount * min (totalSupplied / totalRequested) 1 →
          mc'.netInputs.find? (fun r => r.wareId = w) =
            some (ResourceAmount.mk w
              (e.amount - c.amount * min (totalSupplied / totalRequested) 1))) ∧
        ((mc.netInputs.map (fun r => r.wareId)).Nodup →
          e.amount - c.amount * min (totalSupplied / totalRequested) 1 ≤ 1/100 →
          mc'.netInputs.find? (fun r => r.wareId = w) = none)) := by
  have hempty : ¬(inputConns.isEmpty = true) := by
    cases inputConns with
    | nil => simp at hcmem
    | cons a l => simp [List.isEmpty]
  have hmain : ((applyInputCascade moduleConnections mods w totalSupplied).find?
        (fun m => m.moduleId = c.targetModuleId)) =
      some { mc with netInputs :=
          reduceNetEntry mc.netInputs w (c.amount * min (totalSupplied / totalRequested) 1) } := by
    unfold applyInputCascade
    rw [if_neg (not_lt.mpr hts), ← hic, if_neg hempty, ← htr,
      if_neg (not_lt.mpr htr1)]
    have h1 := foldl_cascade_find_single
      (fun conn mc0 => { mc0 with netInputs := reduceNetEntry mc0.netInputs w (conn.amount * min (totalSupplied / totalRequested) 1) })
      (fun c2 mc0 => rfl) c.targetModuleId c rfl inputConns hcmem hcount mods
    rw [hfind, Option.map_some'] at h1
    exact h1
  refine ⟨hmain, ?_⟩
  intro mc' hmc' e he
  have hmc2 : mc' = { mc with netInputs := reduceNetEntry mc.netInputs w (c.amount * min (totalSupplied / totalRequested) 1) } := by
    rw [hmain] at hmc'
    exact (Option.some.inj hmc').symm
  constructor
  · intro hkeep
    rw [hmc2]
    exact (reduceNetEntry_find he).1 hkeep
  · intro hnd hdrop
    rw [hmc2]
    exact (reduceNetEntry_find he).2 hnd hdrop

/-- Witness for C1 at the spec's concrete example: stored requests 100 and
300, external supply 200, reductions exactly 50 and 150. -/
theorem cascade_supply_proportional_witness :
    ((applyInputCascade connsC1 modsC1 "w" 200).find? (fun m => m.moduleId = "m1") =
      some ⟨"m1", "b", [⟨"w", 100⟩], [], [⟨"w", 50⟩], []⟩) ∧
    ((applyInputCascade connsC1 modsC1 "w" 200).find? (fun m => m.moduleId = "m2") =
      some ⟨"m2", "b", [⟨"w", 300⟩], [], [⟨"w", 150⟩], []⟩) := by
  have hfold : ((connsC1.filter
      (fun c2 => c2.sourceModuleId = STATION_INPUT_ID && c2.wareId = "w")).foldl
        (fun s c2 => s + c2.amount) 0) = 400 := by
    norm_num [connsC1, STATION_INPUT_ID, List.filter]
  have hmin : min ((200:ℚ)/400) 1 = 1/2 := by
    rw [min_eq_left (by norm_num : (200:ℚ)/400 ≤ 1)]
    norm_num
  constructor
  · have h := (cascade_supply_proportional connsC1 modsC1 "w" 200
      ⟨"m1", "b", [⟨"w", 100⟩], [], [⟨"w", 100⟩], []⟩
      ⟨"i1", STATION_INPUT_ID, "m1", "w", 100, some ConnectionMode.auto, none, none⟩
      (connsC1.filter
        (fun c2 => c2.sourceModuleId = STATION_INPUT_ID && c2.wareId = "w")) rfl
      ((connsC1.filter
        (fun c2 => c2.sourceModuleId = STATION_INPUT_ID && c2.wareId = "w")).foldl
          (fun s c2 => s + c2.amount) 0) rfl
      (by norm_num) (by rw [hfold]; norm_num) (by decide) (by decide) (by decide)).1
    rw [hfold] at h
    refine h.trans ?_
    norm_num [reduceNetEntry, hmin]
  · have h := (cascade_supply_proportional connsC1 modsC1 "w" 200
      ⟨"m2", "b", [⟨"w", 300⟩], [], [⟨"w", 300⟩], []⟩
      ⟨"i2", STATION_INPUT_ID, "m2", "w", 300, some ConnectionMode.auto, none, none⟩
      (connsC1.filter
        (fun c2 => c2.sourceModuleId = STATION_INPUT_ID && c2.wareId = "w")) rfl
      ((connsC1.filter
        (fun c2 => c2.sourceModuleId = STATION_INPUT_ID && c2.wareId = "w")).foldl
          (fun s c2 => s + c2.amount) 0) rfl
      (by norm_num) (by rw [hfold]; norm_num) (by decide) (by decide) (by decide)).1
    rw [hfold] at h
    refine h.trans ?_
    norm_num [reduceNetEntry, hmin]

/-- C10: effective sunlight edge cases.  A non-null override is returned
unchanged (including an override of 0), and with no override the default of
100 is returned whenever the sector id is unset, empty, or matches no sector
in the list. -/
theorem getEffectiveSunlight_edge_cases (station : PlanStation) (sectors : List PlanSector) :
    (∀ o, station.sunlightOverride = some o → getEffectiveSunlight station sectors = o) ∧
    (station.sunlightOverride = none →
      (station.sectorId = none ∨ station.sectorId = some "" ∨
        (∀ sid, station.sectorId = some sid → ∀ sec ∈ sectors, sec.id ≠ sid)) →
      getEffectiveSunlight station sectors = 100) := by
  constructor
  · intro o ho
    simp [getEffectiveSunlight, ho]
  · intro hnone hcase
    rcases hcase with h | h | h
    · simp [getEffectiveSunlight, hnone, h, DEFAULT_SUNLIGHT]
    · simp [getEffectiveSunlight, hnone, h, DEFAULT_SUNLIGHT]
    · cases hsid : station.sectorId with
      | none => simp [getEffectiveSunlight, hnone, hsid, DEFAULT_SUNLIGHT]
      | some sid =>
        have hfind : sectors.find? (fun s => s.id = sid) = none := by
          apply List.find?_eq_none.mpr
          intro sec hsec
          simpa using h sid hsid sec hsec
        by_cases hemp : sid = ""
        · simp [getEffectiveSunlight, hnone, hsid, hemp, DEFAULT_SUNLIGHT]
        · simp [getEffectiveSunlight, hnone, hsid, hemp, hfind, DEFAULT_SUNLIGHT]

/-- Witness for C10: a zero override is honored, and an unmatched sector id
falls back to 100. -/
theorem getEffectiveSunlight_edge_cases_witness :
    getEffectiveSunlight { stationS with sunlightOverride := some 0 } [] = 0 ∧
    getEffectiveSunlight { stationA with sectorId := some "nomatch" }
      [⟨"elsewhere", "Sec", 37, v0, ⟨1, 1⟩⟩] = 100 := by
  constructor
  · exact (getEffectiveSunlight_edge_cases { stationS with sunlightOverride := some 0 } []).1
      0 rfl
  · refine (getEffectiveSunlight_edge_cases { stationA with sectorId := some "nomatch" }
      [⟨"elsewhere", "Sec", 37, v0, ⟨1, 1⟩⟩]).2 rfl (Or.inr (Or.inr ?_))
    intro sid hsid sec hsec
    simp only [List.mem_singleton] at hsec
    subst hsec
    have hs : "nomatch" = sid := Option.some.inj hsid
    subst hs
    decide

/-- C2: auto/max flow resolution.  For a connection whose mode is unset,
`auto`, or `max`, the resolved effective amount is exactly
`min(sourceAvailable, targetNeed)`, the source-constrained flag holds iff
`sourceAvailable < targetNeed`, the target-constrained flag holds iff
`targetNeed < sourceAvailable`, `auto` and `max` compute identically, and
this is the computation performed per connection both by the station
evaluator's module-to-module loop and by the network evaluator's
inter-station loop on the remaining availability and need at processing
time. -/
theorem auto_max_flow_resolution (mode : Option ConnectionMode) (a sA tN : ℚ)
    (hm : mode = none ∨ mode = some ConnectionMode.auto ∨ mode = some ConnectionMode.max) :
    (resolveFlow (mode.getD ConnectionMode.auto) a sA tN).effectiveAmount = min sA tN ∧
    ((resolveFlow (mode.getD ConnectionMode.auto) a sA tN).sourceConstrained = true ↔ sA < tN) ∧
    ((resolveFlow (mode.getD ConnectionMode.auto) a sA tN).targetConstrained = true ↔ tN < sA) ∧
    resolveFlow ConnectionMode.auto a sA tN = resolveFlow ConnectionMode.max a sA tN ∧
    (∀ (st : StationResolveState) (conn : PlanModuleConnection), conn.mode = mode →
      (processM2MConn st conn).computeds = st.computeds ++
        [⟨conn.id,
          (resolveFlow (mode.getD ConnectionMode.auto) conn.amount
            (QMap2.lookD st.remOut conn.sourceModuleId conn.wareId)
            (QMap2.lookD st.remIn conn.targetModuleId conn.wareId)).effectiveAmount,
          decide (QMap2.lookD st.remOut conn.sourceModuleId conn.wareId <
            QMap2.lookD st.remIn conn.targetModuleId conn.wareId),
          decide (QMap2.lookD st.remIn conn.targetModuleId conn.wareId <
            QMap2.lookD st.remOut conn.sourceModuleId conn.wareId)⟩]) ∧
    (∀ (st : NetState) (conn : PlanConnection), conn.mode = mode →
      (processNetworkConn st conn).computeds = st.computeds ++
        [⟨conn.id,
          (resolveFlow (mode.getD ConnectionMode.auto) conn.amount
            (QMap2.lookD st.remOut conn.sourceStationId conn.wareId)
            (QMap2.lookD st.remIn conn.targetStationId conn.wareId)).effectiveAmount,
          decide (QMap2.lookD st.remOut conn.sourceStationId conn.wareId <
            QMap2.lookD st.remIn conn.targetStationId conn.wareId),
          decide (QMap2.lookD st.remIn conn.targetStationId conn.wareId <
            QMap2.lookD st.remOut conn.sourceStationId conn.wareId)⟩]) := by
  rcases hm with hm | hm | hm <;> subst hm <;>
    refine ⟨rfl, by simp [resolveFlow], by simp [resolveFlow], rfl, ?_, ?_⟩ <;>
    intro st conn hc <;> simp [processM2MConn, processNetworkConn, resolveFlow, hc]

/-- Witness for C2 at mode `none`, source availability 3, target need 7. -/
theorem auto_max_flow_resolution_witness :
    (resolveFlow ((none : Option ConnectionMode).getD ConnectionMode.auto) 5 3 7).effectiveAmount
      = min 3 7 :=
  (auto_max_flow_resolution none 5 3 7 (Or.inl rfl)).1

/-- C3: custom flow clamp.  With mode `custom` and stored amount `a`, the
resolved effective amount is `min(a, sourceAvailable, targetNeed)`, the
source-constrained flag holds iff `a > sourceAvailable`, the
target-constrained flag holds iff `a > targetNeed`, and this computation is
what both the station evaluator's module-to-module loop and the network
evaluator's inter-station loop record for a `custom` connection on the
remaining availability and need at processing time. -/
theorem custom_flow_clamp (a sA tN : ℚ) :
    (resolveFlow ConnectionMode.custom a sA tN).effectiveAmount = min a (min sA tN) ∧
    ((resolveFlow ConnectionMode.custom a sA tN).sourceConstrained = true ↔ a > sA) ∧
    ((resolveFlow ConnectionMode.custom a sA tN).targetConstrained = true ↔ a > tN) ∧
    (∀ (st : StationResolveState) (conn : PlanModuleConnection),
      conn.mode = some ConnectionMode.custom →
      (processM2MConn st conn).computeds = st.computeds ++
        [⟨conn.id,
          min conn.amount (min (QMap2.lookD st.remOut conn.sourceModuleId conn.wareId)
            (QMap2.lookD st.remIn conn.targetModuleId conn.wareId)),
          decide (conn.amount > QMap2.lookD st.remOut conn.sourceModuleId conn.wareId),
          decide (conn.amount > QMap2.lookD st.remIn conn.targetModuleId conn.wareId)⟩]) ∧
    (∀ (st : NetState) (conn : PlanConnection),
      conn.mode = some ConnectionMode.custom →
      (processNetworkConn st conn).computeds = st.computeds ++
        [⟨conn.id,
          min conn.amount (min (QMap2.lookD st.remOut conn.sourceStationId conn.wareId)
            (QMap2.lookD st.remIn conn.targetStationId conn.wareId)),
          decide (conn.amount > QMap2.lookD st.remOut conn.sourceStationId conn.wareId),
          decide (conn.amount > QMap2.lookD st.remIn conn.targetStationId conn.wareId)⟩]) := by
  refine ⟨rfl, by simp [resolveFlow], by simp [resolveFlow], ?_, ?_⟩ <;>
    intro st conn hc <;> simp [processM2MConn, processNetworkConn, resolveFlow, hc]

/-- Witness for C3 at stored amount 5, source availability 3, target need 7. -/
theorem custom_flow_clamp_witness :
    (resolveFlow ConnectionMode.custom 5 3 7).effectiveAmount = min 5 (min 3 7) :=
  (custom_flow_clamp 5 3 7).1

/-- C6: determinism of evaluation.  `computeNetwork` is a pure function of
the plan and the catalog: equal inputs give equal `NetworkComputed` results
in every field. -/
theorem computeNetwork_deterministic (p p2 : Plan) (g g2 : GameData)
    (hp : p = p2) (hg : g = g2) : computeNetwork p g = computeNetwork p2 g2 := by
  rw [hp, hg]

/-- Witness for C6 on the concrete deficit scenario. -/
theorem computeNetwork_deterministic_witness :
    computeNetwork scenarioPlan gdScenario = computeNetwork scenarioPlan gdScenario :=
  computeNetwork_deterministic scenarioPlan scenarioPlan gdScenario gdScenario rfl rfl

/-- C7: linearity in module count.  Scaling a module's count by a positive
factor `k` (sunlight and worker ratio held fixed) scales every gross input
and gross output amount computed by the module evaluator by exactly `k`. -/
theorem computeModuleIo_count_linear (pm : PlanModule) (g : GameData)
    (sun ratio k : ℚ) (hkpos : 0 < k) :
    (computeModuleIo { pm with count := k * pm.count } g sun ratio).grossInputs =
      (computeModuleIo pm g sun ratio).grossInputs.map
        (fun r => ⟨r.wareId, k * r.amount⟩) ∧
    (computeModuleIo { pm with count := k * pm.count } g sun ratio).grossOutputs =
      (computeModuleIo pm g sun ratio).grossOutputs.map
        (fun r => ⟨r.wareId, k * r.amount⟩) := by
  by_cases hprod : getModuleType pm.blueprintId g = some ModuleType.production
  · cases hfind : recordFind? g.modules.production pm.blueprintId with
    | none => simp [computeModuleIo, hprod, hfind]
    | some prodModule =>
      cases hrec : findRecipeForModule prodModule g.recipes with
      | none => simp [computeModuleIo, hprod, hfind, hrec]
      | some recipe =>
        have key : ∀ cnt : ℚ,
            (computeModuleIo { pm with count := cnt } g sun ratio).grossInputs =
              recipe.inputs.map (fun input => ResourceAmount.mk input.ware
                (input.amount * cnt *
                  (getSunlightMultiplier prodModule.producedWareId sun *
                    getWorkforceMultiplier recipe.workforceBonus ratio) *
                  (HOUR_IN_SECONDS / recipe.time))) ∧
            (computeModuleIo { pm with count := cnt } g sun ratio).grossOutputs =
              [ResourceAmount.mk prodModule.producedWareId
                (recipe.amount * cnt *
                  (getSunlightMultiplier prodModule.producedWareId sun *
                    getWorkforceMultiplier recipe.workforceBonus ratio) *
                  (HOUR_IN_SECONDS / recipe.time))] := by
          intro cnt
          constructor <;> simp [computeModuleIo, hprod, hfind, hrec]
        have k1 := key (k * pm.count)
        have k2i : (computeModuleIo pm g sun ratio).grossInputs =
            recipe.inputs.map (fun input => ResourceAmount.mk input.ware
              (input.amount * pm.count *
                (getSunlightMultiplier prodModule.producedWareId sun *
                  getWorkforceMultiplier recipe.workforceBonus ratio) *
                (HOUR_IN_SECONDS / recipe.time))) := (key pm.count).1
        have k2o : (computeModuleIo pm g sun ratio).grossOutputs =
            [ResourceAmount.mk prodModule.producedWareId
              (recipe.amount * pm.count *
                (getSunlightMultiplier prodModule.producedWareId sun *
                  getWorkforceMultiplier recipe.workforceBonus ratio) *
                (HOUR_IN_SECONDS / recipe.time))] := (key pm.count).2
        constructor
        · rw [k1.1, k2i, List.map_map]
          refine List.map_congr_left fun input _ => ?_
          simp only [Function.comp_apply, ResourceAmount.mk.injEq, true_and]
          ring
        · rw [k1.2, k2o]
          simp only [List.map_cons, List.map_nil, List.cons.injEq,
            ResourceAmount.mk.injEq, true_and, and_true]
          ring
  · simp [computeModuleIo, hprod]

/-- Witness for C7: doubling the widget factory's count doubles its gross
I/O. -/
theorem computeModuleIo_count_linear_witness :
    (computeModuleIo { (⟨"mA", "prodA", 1, v0, none, none⟩ : PlanModule) with
        count := 2 * (⟨"mA", "prodA", 1, v0, none, none⟩ : PlanModule).count }
      gdScenario 100 0).grossInputs =
      (computeModuleIo ⟨"mA", "prodA", 1, v0, none, none⟩ gdScenario 100 0).grossInputs.map
        (fun r => ⟨r.wareId, 2 * r.amount⟩) :=
  (computeModuleIo_count_linear ⟨"mA", "prodA", 1, v0, none, none⟩ gdScenario 100 0 2
    (by norm_num)).1

/-- Counterexample to C9 as stated: a connection running directly from the
Station Input sentinel to the Station Output sentinel is selected by both the
Station-Input filter and the Station-Output filter of `computeStation`'s
grouping, so it is processed in two groups rather than exactly one. -/
theorem conn_grouping_not_partition_counterexample :
    bothSentinelConn ∈ c9Station.moduleConnections.filter isStationInputConn ∧
    bothSentinelConn ∈ c9Station.moduleConnections.filter isStationOutputConn ∧
    bothSentinelConn ∉ c9Station.moduleConnections.filter isM2MConn ∧
    (((if isM2MConn bothSentinelConn then 1 else 0) +
      (if isStationInputConn bothSentinelConn then 1 else 0) +
      (if isStationOutputConn bothSentinelConn then 1 else 0) : ℕ) = 2) := by
  decide

/-- C9 (amended): the three connection groups of `computeStation` form a
partition of every station's module-connection list, except that a
connection whose source is the Station Input sentinel and whose target is
simultaneously the Station Output sentinel lies in both the Station-Input
and Station-Output groups.  For every connection not of that degenerate
shape, exactly one of the three filters selects it. -/
theorem conn_grouping_partition_of_not_both_sentinel (station : PlanStation)
    (c : PlanModuleConnection) (hmem : c ∈ station.moduleConnections)
    (h : ¬(c.sourceModuleId = STATION_INPUT_ID ∧ c.targetModuleId = STATION_OUTPUT_ID)) :
    (c ∈ station.moduleConnections.filter isM2MConn ∧
      c ∉ station.moduleConnections.filter isStationInputConn ∧
      c ∉ station.moduleConnections.filter isStationOutputConn) ∨
    (c ∉ station.moduleConnections.filter isM2MConn ∧
      c ∈ station.moduleConnections.filter isStationInputConn ∧
      c ∉ station.moduleConnections.filter isStationOutputConn) ∨
    (c ∉ station.moduleConnections.filter isM2MConn ∧
      c ∉ station.moduleConnections.filter isStationInputConn ∧
      c ∈ station.moduleConnections.filter isStationOutputConn) := by
  by_cases h1 : c.sourceModuleId = STATION_INPUT_ID
  · by_cases h2 : c.targetModuleId = STATION_OUTPUT_ID
    · exact absurd ⟨h1, h2⟩ h
    · refine Or.inr (Or.inl ⟨?_, ?_, ?_⟩) <;>
        simp [List.mem_filter, isM2MConn, isStationInputConn, isStationOutputConn,
          h1, h2, hmem]
  · by_cases h2 : c.targetModuleId = STATION_OUTPUT_ID
    · refine Or.inr (Or.inr ⟨?_, ?_, ?_⟩) <;>
        simp [List.mem_filter, isM2MConn, isStationInputConn, isStationOutputConn,
          h1, h2, hmem]
    · refine Or.inl ⟨?_, ?_, ?_⟩ <;>
        simp [List.mem_filter, isM2MConn, isStationInputConn, isStationOutputConn,
          h1, h2, hmem]

/-- Witness for the amended C9 on Station A's Station-Input connection. -/
theorem conn_grouping_partition_of_not_both_sentinel_witness :
    (mcAConn ∈ stationA.moduleConnections.filter isM2MConn ∧
      mcAConn ∉ stationA.moduleConnections.filter isStationInputConn ∧
      mcAConn ∉ stationA.moduleConnections.filter isStationOutputConn) ∨
    (mcAConn ∉ stationA.moduleConnections.filter isM2MConn ∧
      mcAConn ∈ stationA.moduleConnections.filter isStationInputConn ∧
      mcAConn ∉ stationA.moduleConnections.filter isStationOutputConn) ∨
    (mcAConn ∉ stationA.moduleConnections.filter isM2MConn ∧
      mcAConn ∉ stationA.moduleConnections.filter isStationInputConn ∧
      mcAConn ∈ stationA.moduleConnections.filter isStationOutputConn) :=
  conn_grouping_partition_of_not_both_sentinel stationA mcAConn (by decide) (by decide)

attribute [local semireducible] Rat.add Rat.sub Rat.mul Rat.inv in
theorem scenario_deficits_eval :
    (computeNetwork scenarioPlan gdScenario).deficits =
      [⟨"ore", "A", 100, 60, 40⟩] := by decide

theorem mem_stationDeficitsOf {st : NetState} {sc : StationComputed} {d : ResourceDeficit} :
    d ∈ stationDeficitsOf st sc ↔
      ∃ A : ℚ, ResourceAmount.mk d.wareId A ∈ sc.stationInputs ∧
        QMap.getD ((QMap2.find? st.supplied sc.stationId).getD []) d.wareId < A - 1/100 ∧
        d.stationId = sc.stationId ∧ d.required = A ∧
        d.supplied = QMap.getD ((QMap2.find? st.supplied sc.stationId).getD []) d.wareId ∧
        d.deficit = A - QMap.getD ((QMap2.find? st.supplied sc.stationId).getD []) d.wareId := by
  unfold stationDeficitsOf
  rw [List.mem_filterMap]
  constructor
  · rintro ⟨input, hmem, hf⟩
    by_cases hcond : QMap.getD ((QMap2.find? st.supplied sc.stationId).getD [])
        input.wareId < input.amount - 1/100
    · rw [if_pos hcond] at hf
      have hd := Option.some.inj hf
      subst hd
      exact ⟨input.amount, hmem, hcond, rfl, rfl, rfl, rfl⟩
    · rw [if_neg hcond] at hf
      simp at hf
  · rintro ⟨A, hmem, hcond, hsid, hreq, hsup, hdef⟩
    obtain ⟨dw, ds, dr, dsu, dde⟩ := d
    refine ⟨ResourceAmount.mk dw A, hmem, ?_⟩
    dsimp only
    dsimp only at hcond hsid hreq hsup hdef
    rw [if_pos hcond, Option.some.injEq, hsid, hreq, hsup, hdef]

/-- C4: deficit emission.  The deficits list of `computeNetwork` contains an
entry for a (station, ware) pair iff the ware appears in that station's
stationInputs with amount `A` and the accumulated externally supplied amount
`S` satisfies `S < A - 0.01`; the emitted record carries `required = A`,
`supplied = S`, `deficit = A - S`.  In the spec's scenario (station wired for
100 ore/hr, supplied 60) exactly one deficit `{required 100, supplied 60,
deficit 40}` is produced. -/
theorem deficit_emission_spec :
    (∀ (plan : Plan) (gameData : GameData) (d : ResourceDeficit),
      d ∈ (computeNetwork plan gameData).deficits ↔
        ∃ sc ∈ (computeNetwork plan gameData).stations,
          sc.stationId = d.stationId ∧
          ∃ A : ℚ, ResourceAmount.mk d.wareId A ∈ sc.stationInputs ∧
            suppliedAt plan gameData sc.stationId d.wareId < A - 1/100 ∧
            d.required = A ∧
            d.supplied = suppliedAt plan gameData sc.stationId d.wareId ∧
            d.deficit = A - suppliedAt plan gameData sc.stationId d.wareId) ∧
    (computeNetwork scenarioPlan gdScenario).deficits =
      [⟨"ore", "A", 100, 60, 40⟩] := by
  constructor
  · intro plan gameData d
    have hdef : (computeNetwork plan gameData).deficits =
        ((computeNetwork plan gameData).stations.map
          (fun sc => stationDeficitsOf (networkFlowState plan gameData) sc)).flatten := rfl
    rw [hdef, List.mem_flatten]
    constructor
    · rintro ⟨l, hl, hdl⟩
      rw [List.mem_map] at hl
      obtain ⟨sc, hsc, rfl⟩ := hl
      obtain ⟨A, hmem, hcond, hsid, hreq, hsup, hdefi⟩ := mem_stationDeficitsOf.mp hdl
      exact ⟨sc, hsc, hsid.symm, A, hmem, hcond, hreq, hsup, hdefi⟩
    · rintro ⟨sc, hsc, hsid, A, hmem, hcond, hreq, hsup, hdefi⟩
      refine ⟨stationDeficitsOf (networkFlowState plan gameData) sc,
        List.mem_map.mpr ⟨sc, hsc, rfl⟩, ?_⟩
      exact mem_stationDeficitsOf.mpr ⟨A, hmem, hcond, hsid.symm, hreq, hsup, hdefi⟩
  · exact scenario_deficits_eval

theorem QMap2.lookD_update_addD_zero (m : QMap2) (k w : String) (k' w' : String) :
    QMap2.lookD (QMap2.update m k (fun mm => QMap.set mm w (QMap.getD mm w + 0))) k' w' =
      QMap2.lookD m k' w' := by
  cases hf : QMap2.find? m k with
  | none => rw [QMap2.update_of_find?_none _ hf]
  | some mm =>
    unfold QMap2.lookD
    rw [QMap2.find?_update]
    by_cases h : k' = k
    · subst h
      rw [if_pos rfl, hf]
      simp only [Option.map_some', Option.getD_some]
      rw [QMap.getD_set]
      by_cases hw : w' = w
      · subst hw
        rw [if_pos rfl, add_zero]
      · rw [if_neg hw]
    · rw [if_neg h]

theorem QMap2.lookD_of_find?_none {m : QMap2} {k : String}
    (h : QMap2.find? m k = none) (w : String) : QMap2.lookD m k w = 0 := by
  unfold QMap2.lookD
  rw [h]
  rfl

theorem computeStation_aggregate_eps (station : PlanStation) (sectors : List PlanSector)
    (gameData : GameData) :
    (∀ r ∈ (computeStation station sectors gameData).stationInputs, (1:ℚ)/100 < r.amount) ∧
    (∀ r ∈ (computeStation station sectors gameData).stationOutputs, (1:ℚ)/100 < r.amount) ∧
    (∀ r ∈ (computeStation station sectors gameData).netInputs, (1:ℚ)/100 < r.amount) ∧
    (∀ r ∈ (computeStation station sectors gameData).netOutputs, (1:ℚ)/100 < r.amount) ∧
    (∀ r ∈ (computeStation station sectors gameData).grossInputs, (1:ℚ)/100 < r.amount) ∧
    (∀ r ∈ (computeStation station sectors gameData).grossOutputs, (1:ℚ)/100 < r.amount) :=
  ⟨fun _ hr => aggregateResourcesStation_gt_eps hr,
   fun _ hr => aggregateResourcesStation_gt_eps hr,
   fun _ hr => aggregateResourcesStation_gt_eps hr,
   fun _ hr => aggregateResourcesStation_gt_eps hr,
   fun _ hr => aggregateResourcesStation_gt_eps hr,
   fun _ hr => aggregateResourcesStation_gt_eps hr⟩

theorem netInitState_RemNonneg (plan : Plan) (scs : List StationComputed)
    (h : ∀ sc ∈ scs, (∀ r ∈ sc.stationOutputs, 0 ≤ r.amount) ∧
      (∀ r ∈ sc.netOutputs, 0 ≤ r.amount) ∧ (∀ r ∈ sc.stationInputs, 0 ≤ r.amount)) :
    NetState.RemNonneg (netInitState plan scs) := by
  have hbase : QMap2.Nonneg (plan.stations.foldl
      (fun acc station => QMap2.set acc station.id []) []) := by
    apply foldl_preserves QMap2.Nonneg
    · intro p hp
      simp at hp
    · intro s station _ hs
      exact QMap2.set_Nonneg hs (fun p hp => by simp at hp)
  unfold NetState.RemNonneg netInitState
  dsimp only
  constructor
  · apply foldl_preserves QMap2.Nonneg _ scs _ hbase
    intro s sc hsc hs
    apply QMap2.Nonneg_update hs
    intro mm hmm
    apply foldl_preserves QMap.Nonneg _ sc.stationOutputs mm hmm
    intro m output hout hm
    apply QMap.Nonneg_set hm
    have h1 : 0 ≤ output.amount := (h sc hsc).1 output hout
    cases hfo : sc.netOutputs.find? (fun o => o.wareId = output.wareId) with
    | none =>
      simp only [hfo, Option.map_none', Option.getD_none]
      exact le_min h1 h1
    | some o =>
      have h2 : 0 ≤ o.amount := (h sc hsc).2.1 o (List.mem_of_find?_eq_some hfo)
      simp only [hfo, Option.map_some', Option.getD_some]
      exact le_min h1 h2
  · apply foldl_preserves QMap2.Nonneg _ scs _ hbase
    intro s sc hsc hs
    apply QMap2.Nonneg_update hs
    intro mm hmm
    apply foldl_preserves QMap.Nonneg _ sc.stationInputs mm hmm
    intro m input hin hm
    exact QMap.Nonneg_set hm ((h sc hsc).2.2 input hin)

theorem processNetworkConn_RemNonneg {st : NetState} (conn : PlanConnection)
    (h : NetState.RemNonneg st) : NetState.RemNonneg (processNetworkConn st conn) := by
  obtain ⟨hOut, hIn⟩ := h
  constructor
  · simp only [processNetworkConn]
    apply QMap2.Nonneg_update hOut
    intro mm hmm
    exact QMap.Nonneg_set hmm (sub_nonneg.mpr
      (resolveFlow_le (conn.mode.getD ConnectionMode.auto) conn.amount _ _).1)
  · simp only [processNetworkConn]
    apply QMap2.Nonneg_update hIn
    intro mm hmm
    exact QMap.Nonneg_set hmm (sub_nonneg.mpr
      (resolveFlow_le (conn.mode.getD ConnectionMode.auto) conn.amount _ _).2)

theorem networkFlowState_RemNonneg (plan : Plan) (gameData : GameData) :
    NetState.RemNonneg (networkFlowState plan gameData) := by
  unfold networkFlowState
  apply foldl_preserves NetState.RemNonneg
  · apply netInitState_RemNonneg
    intro sc hsc
    unfold stationComputedsOf at hsc
    obtain ⟨station, _, rfl⟩ := List.mem_map.mp hsc
    have h := computeStation_aggregate_eps station plan.sectors gameData
    exact ⟨fun r hr => le_trans (by norm_num) (le_of_lt (h.2.1 r hr)),
      fun r hr => le_trans (by norm_num) (le_of_lt (h.2.2.2.1 r hr)),
      fun r hr => le_trans (by norm_num) (le_of_lt (h.1 r hr))⟩
  · intro s conn _ hs
    exact processNetworkConn_RemNonneg conn hs

theorem processNetworkConn_dangling_source {st : NetState} {conn : PlanConnection}
    (hIn : QMap2.Nonneg st.remIn)
    (hnone : QMap2.find? st.remOut conn.sourceStationId = none)
    (hok : conn.mode.getD ConnectionMode.auto ≠ ConnectionMode.custom ∨ 0 ≤ conn.amount) :
    (∃ b1 b2, (processNetworkConn st conn).computeds =
      st.computeds ++ [⟨conn.id, 0, b1, b2⟩]) ∧
    ∀ k w, QMap2.lookD (processNetworkConn st conn).supplied k w =
        QMap2.lookD st.supplied k w ∧
      QMap2.lookD (processNetworkConn st conn).consumed k w = QMap2.lookD st.consumed k w ∧
      QMap2.lookD (processNetworkConn st conn).remOut k w = QMap2.lookD st.remOut k w ∧
      QMap2.lookD (processNetworkConn st conn).remIn k w = QMap2.lookD st.remIn k w := by
  have hsA : QMap2.lookD st.remOut conn.sourceStationId conn.wareId = 0 :=
    QMap2.lookD_of_find?_none hnone _
  have heff : (resolveFlow (conn.mode.getD ConnectionMode.auto) conn.amount
      (QMap2.lookD st.remOut conn.sourceStationId conn.wareId)
      (QMap2.lookD st.remIn conn.targetStationId conn.wareId)).effectiveAmount = 0 := by
    rw [hsA]
    exact resolveFlow_eff_zero_left hok (QMap2.lookD_nonneg hIn _ _)
  constructor
  · refine ⟨(resolveFlow (conn.mode.getD ConnectionMode.auto) conn.amount
        (QMap2.lookD st.remOut conn.sourceStationId conn.wareId)
        (QMap2.lookD st.remIn conn.targetStationId conn.wareId)).sourceConstrained,
      (resolveFlow (conn.mode.getD ConnectionMode.auto) conn.amount
        (QMap2.lookD st.remOut conn.sourceStationId conn.wareId)
        (QMap2.lookD st.remIn conn.targetStationId conn.wareId)).targetConstrained, ?_⟩
    simp only [processNetworkConn]
    rw [heff]
  · intro k w
    refine ⟨?_, ?_, ?_, ?_⟩
    · simp only [processNetworkConn]
      rw [heff]
      exact QMap2.lookD_update_addD_zero _ _ _ _ _
    · simp only [processNetworkConn]
      rw [heff]
      exact QMap2.lookD_update_addD_zero _ _ _ _ _
    · simp only [processNetworkConn]
      rw [QMap2.update_of_find?_none _ hnone]
    · simp only [processNetworkConn]
      rw [heff]
      exact QMap2.lookD_update_set_value _ _ _ _ (by rw [sub_zero]) _ _

theorem processNetworkConn_dangling_target {st : NetState} {conn : PlanConnection}
    (hOut : QMap2.Nonneg st.remOut)
    (hnone : QMap2.find? st.remIn conn.targetStationId = none)
    (hok : conn.mode.getD ConnectionMode.auto ≠ ConnectionMode.custom ∨ 0 ≤ conn.amount) :
    (∃ b1 b2, (processNetworkConn st conn).computeds =
      st.computeds ++ [⟨conn.id, 0, b1, b2⟩]) ∧
    ∀ k w, QMap2.lookD (processNetworkConn st conn).supplied k w =
        QMap2.lookD st.supplied k w ∧
      QMap2.lookD (processNetworkConn st conn).consumed k w = QMap2.lookD st.consumed k w ∧
      QMap2.lookD (processNetworkConn st conn).remOut k w = QMap2.lookD st.remOut k w ∧
      QMap2.lookD (processNetworkConn st conn).remIn k w = QMap2.lookD st.remIn k w := by
  have htN : QMap2.lookD st.remIn conn.targetStationId conn.wareId = 0 :=
    QMap2.lookD_of_find?_none hnone _
  have heff : (resolveFlow (conn.mode.getD ConnectionMode.auto) conn.amount
      (QMap2.lookD st.remOut conn.sourceStationId conn.wareId)
      (QMap2.lookD st.remIn conn.targetStationId conn.wareId)).effectiveAmount = 0 := by
    rw [htN]
    exact resolveFlow_eff_zero_right hok (QMap2.lookD_nonneg hOut _ _)
  constructor
  · refine ⟨(resolveFlow (conn.mode.getD ConnectionMode.auto) conn.amount
        (QMap2.lookD st.remOut conn.sourceStationId conn.wareId)
        (QMap2.lookD st.remIn conn.targetStationId conn.wareId)).sourceConstrained,
      (resolveFlow (conn.mode.getD ConnectionMode.auto) conn.amount
        (QMap2.lookD st.remOut conn.sourceStationId conn.wareId)
        (QMap2.lookD st.remIn conn.targetStationId conn.wareId)).targetConstrained, ?_⟩
    simp only [processNetworkConn]
    rw [heff]
  · intro k w
    refine ⟨?_, ?_, ?_, ?_⟩
    · simp only [processNetworkConn]
      rw [heff]
      exact QMap2.lookD_update_addD_zero _ _ _ _ _
    · simp only [processNetworkConn]
      rw [heff]
      exact QMap2.lookD_update_addD_zero _ _ _ _ _
    · simp only [processNetworkConn]
      rw [heff]
      exact QMap2.lookD_update_set_value _ _ _ _ (by rw [sub_zero]) _ _
    · simp only [processNetworkConn]
      rw [QMap2.update_of_find?_none _ hnone]

theorem processM2MConn_dangling_source {st : StationResolveState}
    {conn : PlanModuleConnection}
    (hIn : QMap2.Nonneg st.remIn)
    (hnone : QMap2.find? st.remOut conn.sourceModuleId = none)
    (hok : conn.mode.getD ConnectionMode.auto ≠ ConnectionMode.custom ∨ 0 ≤ conn.amount) :
    (∃ b1 b2, (processM2MConn st conn).computeds =
      st.computeds ++ [⟨conn.id, 0, b1, b2⟩]) ∧
    ∀ k w, QMap2.lookD (processM2MConn st conn).supplied k w =
        QMap2.lookD st.supplied k w ∧
      QMap2.lookD (processM2MConn st conn).exported k w = QMap2.lookD st.exported k w ∧
      QMap2.lookD (processM2MConn st conn).remOut k w = QMap2.lookD st.remOut k w ∧
      QMap2.lookD (processM2MConn st conn).remIn k w = QMap2.lookD st.remIn k w := by
  have hsA : QMap2.lookD st.remOut conn.sourceModuleId conn.wareId = 0 :=
    QMap2.lookD_of_find?_none hnone _
  have heff : (resolveFlow (conn.mode.getD ConnectionMode.auto) conn.amount
      (QMap2.lookD st.remOut conn.sourceModuleId conn.wareId)
      (QMap2.lookD st.remIn conn.targetModuleId conn.wareId)).effectiveAmount = 0 := by
    rw [hsA]
    exact resolveFlow_eff_zero_left hok (QMap2.lookD_nonneg hIn _ _)
  constructor
  · refine ⟨(resolveFlow (conn.mode.getD ConnectionMode.auto) conn.amount
        (QMap2.lookD st.remOut conn.sourceModuleId conn.wareId)
        (QMap2.lookD st.remIn conn.targetModuleId conn.wareId)).sourceConstrained,
      (resolveFlow (conn.mode.getD ConnectionMode.auto) conn.amount
        (QMap2.lookD st.remOut conn.sourceModuleId conn.wareId)
        (QMap2.lookD st.remIn conn.targetModuleId conn.wareId)).targetConstrained, ?_⟩
    simp only [processM2MConn]
    rw [heff]
  · intro k w
    refine ⟨?_, ?_, ?_, ?_⟩
    · simp only [processM2MConn]
      rw [heff]
      exact QMap2.lookD_update_addD_zero _ _ _ _ _
    · simp only [processM2MConn]
      rw [heff]
      exact QMap2.lookD_update_addD_zero _ _ _ _ _
    · simp only [processM2MConn]
      rw [QMap2.update_of_find?_none _ hnone]
    · simp only [processM2MConn]
      rw [heff]
      exact QMap2.lookD_update_set_value _ _ _ _ (by rw [sub_zero]) _ _

theorem processM2MConn_dangling_target {st : StationResolveState}
    {conn : PlanModuleConnection}
    (hOut : QMap2.Nonneg st.remOut)
    (hnone : QMap2.find? st.remIn conn.targetModuleId = none)
    (hok : conn.mode.getD ConnectionMode.auto ≠ ConnectionMode.custom ∨ 0 ≤ conn.amount) :
    (∃ b1 b2, (processM2MConn st conn).computeds =
      st.computeds ++ [⟨conn.id, 0, b1, b2⟩]) ∧
    ∀ k w, QMap2.lookD (processM2MConn st conn).supplied k w =
        QMap2.lookD st.supplied k w ∧
      QMap2.lookD (processM2MConn st conn).exported k w = QMap2.lookD st.exported k w ∧
      QMap2.lookD (processM2MConn st conn).remOut k w = QMap2.lookD st.remOut k w ∧
      QMap2.lookD (processM2MConn st conn).remIn k w = QMap2.lookD st.remIn k w := by
  have htN : QMap2.lookD st.remIn conn.targetModuleId conn.wareId = 0 :=
    QMap2.lookD_of_find?_none hnone _
  have heff : (resolveFlow (conn.mode.getD ConnectionMode.auto) conn.amount
      (QMap2.lookD st.remOut conn.sourceModuleId conn.wareId)
      (QMap2.lookD st.remIn conn.targetModuleId conn.wareId)).effectiveAmount = 0 := by
    rw [htN]
    exact resolveFlow_eff_zero_right hok (QMap2.lookD_nonneg hOut _ _)
  constructor
  · refine ⟨(resolveFlow (conn.mode.getD ConnectionMode.auto) conn.amount
        (QMap2.lookD st.remOut conn.sourceModuleId conn.wareId)
        (QMap2.lookD st.remIn conn.targetModuleId conn.wareId)).sourceConstrained,
      (resolveFlow (conn.mode.getD ConnectionMode.auto) conn.amount
        (QMap2.lookD st.remOut conn.sourceModuleId conn.wareId)
        (QMap2.lookD st.remIn conn.targetModuleId conn.wareId)).targetConstrained, ?_⟩
    simp only [processM2MConn]
    rw [heff]
  · intro k w
    refine ⟨?_, ?_, ?_, ?_⟩
    · simp only [processM2MConn]
      rw [heff]
      exact QMap2.lookD_update_addD_zero _ _ _ _ _
    · simp only [processM2MConn]
      rw [heff]
      exact QMap2.lookD_update_addD_zero _ _ _ _ _
    · simp only [processM2MConn]
      rw [heff]
      exact QMap2.lookD_update_set_value _ _ _ _ (by rw [sub_zero]) _ _
    · simp only [processM2MConn]
      rw [QMap2.update_of_find?_none _ hnone]

theorem processStationInputConn_dangling_target {st : StationResolveState}
    {conn : PlanModuleConnection}
    (hnone : QMap2.find? st.remIn conn.targetModuleId = none)
    (hok : conn.mode.getD ConnectionMode.auto ≠ ConnectionMode.custom ∨ 0 ≤ conn.amount) :
    (∃ b1 b2, (processStationInputConn st conn).computeds =
      st.computeds ++ [⟨conn.id, 0, b1, b2⟩]) ∧
    (processStationInputConn st conn).remIn = st.remIn ∧
    (processStationInputConn st conn).remOut = st.remOut ∧
    (processStationInputConn st conn).supplied = st.supplied ∧
    (processStationInputConn st conn).exported = st.exported := by
  have htN : QMap2.lookD st.remIn conn.targetModuleId conn.wareId = 0 :=
    QMap2.lookD_of_find?_none hnone _
  constructor
  · cases hm : conn.mode.getD ConnectionMode.auto with
    | custom =>
      have ha : 0 ≤ conn.amount := by
        rcases hok with hok | hok
        · exact absurd hm hok
        · exact hok
      refine ⟨false,
        decide (conn.amount > QMap2.lookD st.remIn conn.targetModuleId conn.wareId), ?_⟩
      simp only [processStationInputConn, hm]
      rw [htN, min_eq_right ha]
    | auto =>
      refine ⟨false, false, ?_⟩
      simp only [processStationInputConn, hm]
      rw [htN]
    | max =>
      refine ⟨false, false, ?_⟩
      simp only [processStationInputConn, hm]
      rw [htN]
  · refine ⟨?_, rfl, rfl, rfl⟩
    simp only [processStationInputConn]
    rw [QMap2.update_of_find?_none _ hnone]

theorem processStationOutputConn_dangling_source {st : StationResolveState}
    {conn : PlanModuleConnection}
    (hnone : QMap2.find? st.remOut conn.sourceModuleId = none)
    (hok : conn.mode.getD ConnectionMode.auto ≠ ConnectionMode.custom ∨ 0 ≤ conn.amount) :
    (∃ b1 b2, (processStationOutputConn st conn).computeds =
      st.computeds ++ [⟨conn.id, 0, b1, b2⟩]) ∧
    (processStationOutputConn st conn).remOut = st.remOut ∧
    (processStationOutputConn st conn).remIn = st.remIn ∧
    (processStationOutputConn st conn).supplied = st.supplied ∧
    (processStationOutputConn st conn).exported = st.exported := by
  have hsA : QMap2.lookD st.remOut conn.sourceModuleId conn.wareId = 0 :=
    QMap2.lookD_of_find?_none hnone _
  constructor
  · cases hm : conn.mode.getD ConnectionMode.auto with
    | custom =>
      have ha : 0 ≤ conn.amount := by
        rcases hok with hok | hok
        · exact absurd hm hok
        · exact hok
      refine ⟨decide (conn.amount > QMap2.lookD st.remOut conn.sourceModuleId conn.wareId),
        false, ?_⟩
      simp only [processStationOutputConn, hm]
      rw [hsA, min_eq_right ha]
    | auto =>
      refine ⟨false, false, ?_⟩
      simp only [processStationOutputConn, hm]
      rw [hsA]
    | max =>
      refine ⟨false, false, ?_⟩
      simp only [processStationOutputConn, hm]
      rw [hsA]
  · refine ⟨?_, rfl, rfl, rfl⟩
    simp only [processStationOutputConn]
    rw [QMap2.update_of_find?_none _ hnone]

/-- C8: dangling-reference degradation.  The remaining-output/remaining-input
maps of the network state are nonnegative throughout every run (first
conjunct), and whenever a connection's source or target id fails to resolve
(its key is absent from the corresponding remaining map), the unresolved
endpoint reads as zero availability/need, so — in modes auto/max, or custom
with a nonnegative stored amount — the connection's recorded effectiveAmount
is 0 and every remaining/supplied/consumed (or exported) accumulator of every
entity is left with unchanged values.  This is stated for inter-station
connections (both endpoints), module-to-module connections (both endpoints),
Station-Input connections (target) and Station-Output connections (source);
all step functions are total, so no exception can be raised. -/
theorem dangling_reference_zero_flow :
    (∀ (plan : Plan) (gameData : GameData),
      NetState.RemNonneg (networkFlowState plan gameData)) ∧
    (∀ (st : NetState) (conn : PlanConnection),
      QMap2.Nonneg st.remIn →
      QMap2.find? st.remOut conn.sourceStationId = none →
      (conn.mode.getD ConnectionMode.auto ≠ ConnectionMode.custom ∨ 0 ≤ conn.amount) →
      (∃ b1 b2, (processNetworkConn st conn).computeds =
        st.computeds ++ [⟨conn.id, 0, b1, b2⟩]) ∧
      ∀ k w, QMap2.lookD (processNetworkConn st conn).supplied k w =
          QMap2.lookD st.supplied k w ∧
        QMap2.lookD (processNetworkConn st conn).consumed k w = QMap2.lookD st.consumed k w ∧
        QMap2.lookD (processNetworkConn st conn).remOut k w = QMap2.lookD st.remOut k w ∧
        QMap2.lookD (processNetworkConn st conn).remIn k w = QMap2.lookD st.remIn k w) ∧
    (∀ (st : NetState) (conn : PlanConnection),
      QMap2.Nonneg st.remOut →
      QMap2.find? st.remIn conn.targetStationId = none →
      (conn.mode.getD ConnectionMode.auto ≠ ConnectionMode.custom ∨ 0 ≤ conn.amount) →
      (∃ b1 b2, (processNetworkConn st conn).computeds =
        st.computeds ++ [⟨conn.id, 0, b1, b2⟩]) ∧
      ∀ k w, QMap2.lookD (processNetworkConn st conn).supplied k w =
          QMap2.lookD st.supplied k w ∧
        QMap2.lookD (processNetworkConn st conn).consumed k w = QMap2.lookD st.consumed k w ∧
        QMap2.lookD (processNetworkConn st conn).remOut k w = QMap2.lookD st.remOut k w ∧
        QMap2.lookD (processNetworkConn st conn).remIn k w = QMap2.lookD st.remIn k w) ∧
    (∀ (st : StationResolveState) (conn : PlanModuleConnection),
      QMap2.Nonneg st.remIn →
      QMap2.find? st.remOut conn.sourceModuleId = none →
      (conn.mode.getD ConnectionMode.auto ≠ ConnectionMode.custom ∨ 0 ≤ conn.amount) →
      (∃ b1 b2, (processM2MConn st conn).computeds =
        st.computeds ++ [⟨conn.id, 0, b1, b2⟩]) ∧
      ∀ k w, QMap2.lookD (processM2MConn st conn).supplied k w =
          QMap2.lookD st.supplied k w ∧
        QMap2.lookD (processM2MConn st conn).exported k w = QMap2.lookD st.exported k w ∧
        QMap2.lookD (processM2MConn st conn).remOut k w = QMap2.lookD st.remOut k w ∧
        QMap2.lookD (processM2MConn st conn).remIn k w = QMap2.lookD st.remIn k w) ∧
    (∀ (st : StationResolveState) (conn : PlanModuleConnection),
      QMap2.Nonneg st.remOut →
      QMap2.find? st.remIn conn.targetModuleId = none →
      (conn.mode.getD ConnectionMode.auto ≠ ConnectionMode.custom ∨ 0 ≤ conn.amount) →
      (∃ b1 b2, (processM2MConn st conn).computeds =
        st.computeds ++ [⟨conn.id, 0, b1, b2⟩]) ∧
      ∀ k w, QMap2.lookD (processM2MConn st conn).supplied k w =
          QMap2.lookD st.supplied k w ∧
        QMap2.lookD (processM2MConn st conn).exported k w = QMap2.lookD st.exported k w ∧
        QMap2.lookD (processM2MConn st conn).remOut k w = QMap2.lookD st.remOut k w ∧
        QMap2.lookD (processM2MConn st conn).remIn k w = QMap2.lookD st.remIn k w) ∧
    (∀ (st : StationResolveState) (conn : PlanModuleConnection),
      QMap2.find? st.remIn conn.targetModuleId = none →
      (conn.mode.getD ConnectionMode.auto ≠ ConnectionMode.custom ∨ 0 ≤ conn.amount) →
      (∃ b1 b2, (processStationInputConn st conn).computeds =
        st.computeds ++ [⟨conn.id, 0, b1, b2⟩]) ∧
      (processStationInputConn st conn).remIn = st.remIn ∧
      (processStationInputConn st conn).remOut = st.remOut ∧
      (processStationInputConn st conn).supplied = st.supplied ∧
      (processStationInputConn st conn).exported = st.exported) ∧
    (∀ (st : StationResolveState) (conn : PlanModuleConnection),
      QMap2.find? st.remOut conn.sourceModuleId = none →
      (conn.mode.getD ConnectionMode.auto ≠ ConnectionMode.custom ∨ 0 ≤ conn.amount) →
      (∃ b1 b2, (processStationOutputConn st conn).computeds =
        st.computeds ++ [⟨conn.id, 0, b1, b2⟩]) ∧
      (processStationOutputConn st conn).remOut = st.remOut ∧
      (processStationOutputConn st conn).remIn = st.remIn ∧
      (processStationOutputConn st conn).supplied = st.supplied ∧
      (processStationOutputConn st conn).exported = st.exported) :=
  ⟨networkFlowState_RemNonneg,
   fun _ _ hIn hnone hok => processNetworkConn_dangling_source hIn hnone hok,
   fun _ _ hOut hnone hok => processNetworkConn_dangling_target hOut hnone hok,
   fun _ _ hIn hnone hok => processM2MConn_dangling_source hIn hnone hok,
   fun _ _ hOut hnone hok => processM2MConn_dangling_target hOut hnone hok,
   fun _ _ hnone hok => processStationInputConn_dangling_target hnone hok,
   fun _ _ hnone hok => processStationOutputConn_dangling_source hnone hok⟩

/-- Witness for C8 on concrete states whose source ids do not resolve. -/
theorem dangling_reference_zero_flow_witness :
    (∃ b1 b2, (processNetworkConn c8NetState c8Conn).computeds =
      c8NetState.computeds ++ [⟨c8Conn.id, 0, b1, b2⟩]) ∧
    (∃ b1 b2, (processM2MConn c8StationState c8ModuleConn).computeds =
      c8StationState.computeds ++ [⟨c8ModuleConn.id, 0, b1, b2⟩]) :=
  ⟨(dangling_reference_zero_flow.2.1 c8NetState c8Conn
      (by unfold QMap2.Nonneg QMap.Nonneg; decide) (by decide) (Or.inl (by decide))).1,
   (dangling_reference_zero_flow.2.2.2.1 c8StationState c8ModuleConn
      (by unfold QMap2.Nonneg QMap.Nonneg; decide) (by decide) (Or.inl (by decide))).1⟩

theorem recordFind?_eq_some_mem {α : Type} {rec : List (String × α)} {k : String} {v : α}
    (h : recordFind? rec k = some v) : ∃ p ∈ rec, p.2 = v := by
  unfold recordFind? at h
  rcases Option.map_eq_some'.mp h with ⟨p, hp, hv⟩
  exact ⟨p, List.mem_of_find?_eq_some hp, hv⟩

theorem findRecipeForModule_mem {m : ProductionModule} {recipes : List (String × Recipe)}
    {r : Recipe} (h : findRecipeForModule m recipes = some r) : ∃ p ∈ recipes, p.2 = r := by
  unfold findRecipeForModule at h
  dsimp only at h
  split at h
  · exact recordFind?_eq_some_mem (by rw [← (Option.some.inj h)]; assumption)
  · split at h
    · exact recordFind?_eq_some_mem (by rw [← (Option.some.inj h)]; assumption)
    · have hr := List.mem_of_find?_eq_some h
      rcases List.mem_map.mp hr with ⟨p, hp, hv⟩
      exact ⟨p, hp, hv⟩

theorem getEffectiveSunlight_nonneg (station : PlanStation) (sectors : List PlanSector)
    (hover : 0 ≤ station.sunlightOverride.getD 0)
    (hsec : ∀ s ∈ sectors, 0 ≤ s.sunlight) :
    0 ≤ getEffectiveSunlight station sectors := by
  unfold getEffectiveSunlight
  cases ho : station.sunlightOverride with
  | some o =>
    dsimp only
    rw [ho] at hover
    simpa using hover
  | none =>
    dsimp only
    cases station.sectorId with
    | none => norm_num [DEFAULT_SUNLIGHT]
    | some sid =>
      dsimp only
      by_cases hemp : sid ≠ ""
      · rw [if_pos hemp]
        cases hf : sectors.find? (fun s => s.id = sid) with
        | none => norm_num [DEFAULT_SUNLIGHT]
        | some sector =>
          dsimp only
          exact hsec sector (List.mem_of_find?_eq_some hf)
      · rw [if_neg hemp]
        norm_num [DEFAULT_SUNLIGHT]

theorem calculateWorkforceStats_workerRatio_nonneg (req cap : ℚ) (fill : Bool)
    (hreq : 0 ≤ req) (hcap : 0 ≤ cap) :
    0 ≤ (calculateWorkforceStats req cap fill).workerRatio := by
  unfold calculateWorkforceStats
  dsimp only
  have hpop : 0 ≤ if fill then cap else min req cap := by
    by_cases hf : fill
    · simpa [hf] using hcap
    · simp only [hf, if_false]
      exact le_min hreq hcap
  by_cases hr : req > 0
  · rw [if_pos hr]
    exact le_min (div_nonneg hpop (le_of_lt hr)) zero_le_one
  · rw [if_neg hr]

theorem stationWorkforceTotals_nonneg (stationModules : List PlanModule)
    (gameData : GameData) (hg : GameData.Nonneg gameData)
    (hcount : ∀ m ∈ stationModules, 0 ≤ m.count) :
    0 ≤ (stationWorkforceTotals stationModules gameData).1 ∧
    0 ≤ (stationWorkforceTotals stationModules gameData).2 := by
  unfold stationWorkforceTotals
  apply foldl_preserves (fun acc : ℚ × ℚ => 0 ≤ acc.1 ∧ 0 ≤ acc.2)
  · exact ⟨le_refl 0, le_refl 0⟩
  · intro acc pm hpm hacc
    cases getModuleType pm.blueprintId gameData with
    | none => exact hacc
    | some mt =>
      cases mt with
      | production =>
        cases hf : recordFind? gameData.modules.production pm.blueprintId with
        | none => exact hacc
        | some prodModule =>
          refine ⟨add_nonneg hacc.1 (mul_nonneg ?_ (hcount pm hpm)), hacc.2⟩
          obtain ⟨p, hp, rfl⟩ := recordFind?_eq_some_mem hf
          exact hg.2.1 p hp
      | habitat =>
        cases hf : recordFind? gameData.modules.habitat pm.blueprintId with
        | none => exact hacc
        | some habModule =>
          refine ⟨hacc.1, add_nonneg hacc.2 (mul_nonneg ?_ (hcount pm hpm))⟩
          obtain ⟨p, hp, rfl⟩ := recordFind?_eq_some_mem hf
          exact hg.2.2 p hp
      | storage => exact hacc

theorem getSunlightMultiplier_nonneg (wareId : String) {s : ℚ} (hs : 0 ≤ s) :
    0 ≤ getSunlightMultiplier wareId s := by
  unfold getSunlightMultiplier
  by_cases h : SUNLIGHT_AFFECTED_WARES.contains wareId
  · rw [if_pos h]
    exact div_nonneg hs (by norm_num)
  · rw [if_neg h]
    norm_num

theorem getWorkforceUpkeepForCapacity_nonneg (stats : WorkforceStats) (mcap : ℚ) :
    amountsNonneg (getWorkforceUpkeepForCapacity stats mcap) := by
  unfold getWorkforceUpkeepForCapacity
  by_cases hz : stats.totalCapacity ≤ 0 ∨ mcap ≤ 0
  · rw [if_pos hz]
    intro r hr
    simp at hr
  · rw [if_neg hz]
    push_neg at hz
    have hshare : 0 ≤ mcap / stats.totalCapacity :=
      div_nonneg (le_of_lt hz.2) (le_of_lt hz.1)
    intro r hr
    rcases List.mem_append.mp hr with hr | hr
    · by_cases hfd : stats.foodDemand > 0
      · rw [if_pos hfd] at hr
        rcases List.mem_singleton.mp hr with rfl
        exact mul_nonneg (le_of_lt hfd) hshare
      · rw [if_neg hfd] at hr
        simp at hr
    · by_cases hmd : stats.medicalDemand > 0
      · rw [if_pos hmd] at hr
        rcases List.mem_singleton.mp hr with rfl
        exact mul_nonneg (le_of_lt hmd) hshare
      · rw [if_neg hmd] at hr
        simp at hr

theorem computeModuleIo_gross_nonneg (pm : PlanModule) (g : GameData) (sun ratio : ℚ)
    (hg : GameData.Nonneg g) (hsun : 0 ≤ sun) (hratio : 0 ≤ ratio) (hcount : 0 ≤ pm.count) :
    GrossNonneg (computeModuleIo pm g sun ratio) := by
  by_cases hprod : getModuleType pm.blueprintId g = some ModuleType.production
  · cases hfind : recordFind? g.modules.production pm.blueprintId with
    | none =>
      constructor <;> intro r hr <;> simp [computeModuleIo, hprod, hfind] at hr
    | some prodModule =>
      cases hrec : findRecipeForModule prodModule g.recipes with
      | none =>
        constructor <;> intro r hr <;> simp [computeModuleIo, hprod, hfind, hrec] at hr
      | some recipe =>
        obtain ⟨p, hp, rfl⟩ := findRecipeForModule_mem hrec
        obtain ⟨htime, hamt, hbonus, hinputs⟩ := hg.1 p hp
        have hmult : 0 ≤ getSunlightMultiplier prodModule.producedWareId sun *
            getWorkforceMultiplier p.2.workforceBonus ratio :=
          mul_nonneg (getSunlightMultiplier_nonneg _ hsun)
            (add_nonneg zero_le_one (mul_nonneg hbonus hratio))
        have hcyc : 0 ≤ HOUR_IN_SECONDS / p.2.time := by
          unfold HOUR_IN_SECONDS
          exact div_nonneg (by norm_num) (le_of_lt htime)
        constructor
        · intro r hr
          simp only [computeModuleIo, hprod, hfind, hrec, if_true, eq_self_iff_true] at hr
          rcases List.mem_map.mp hr with ⟨input, hin, rfl⟩
          exact mul_nonneg (mul_nonneg (mul_nonneg (hinputs input hin) hcount) hmult) hcyc
        · intro r hr
          simp only [computeModuleIo, hprod, hfind, hrec, if_true, eq_self_iff_true] at hr
          rcases List.mem_singleton.mp hr with rfl
          exact mul_nonneg (mul_nonneg (mul_nonneg hamt hcount) hmult) hcyc
  · constructor <;> intro r hr <;> simp [computeModuleIo, hprod] at hr

theorem updateLastModule_mem {mods : List ModuleComputed} {mid : String}
    {f : ModuleComputed → ModuleComputed} {mc' : ModuleComputed}
    (h : mc' ∈ updateLastModule mods mid f) : mc' ∈ mods ∨ ∃ mc ∈ mods, mc' = f mc := by
  unfold updateLastModule at h
  rw [List.mem_reverse] at h
  rcases updateFirstModule_mem h with h | ⟨mc, hmc, he⟩
  · exact Or.inl (List.mem_reverse.mp h)
  · exact Or.inr ⟨mc, List.mem_reverse.mp hmc, he⟩

theorem distributeUpkeep_gross_nonneg (stationModules : List PlanModule)
    (gameData : GameData) (workforceStats : WorkforceStats)
    (mods : List ModuleComputed) (h : ∀ mc ∈ mods, GrossNonneg mc) :
    ∀ mc ∈ distributeUpkeep stationModules gameData workforceStats mods, GrossNonneg mc := by
  unfold distributeUpkeep
  apply foldl_preserves (fun acc => ∀ mc ∈ acc, GrossNonneg mc) _ _ _ h
  intro acc pm hpm hacc
  by_cases hhab : getModuleType pm.blueprintId gameData = some ModuleType.habitat
  · rw [if_pos hhab]
    cases hf : recordFind? gameData.modules.habitat pm.blueprintId with
    | none => exact hacc
    | some habModule =>
      intro mc hmc
      rcases updateLastModule_mem hmc with hmc | ⟨mc0, hmc0, rfl⟩
      · exact hacc mc hmc
      · obtain ⟨hgi, hgo⟩ := hacc mc0 hmc0
        constructor
        · intro r hr
          rcases List.mem_append.mp hr with hr | hr
          · exact hgi r hr
          · exact getWorkforceUpkeepForCapacity_nonneg _ _ r hr
        · exact hgo
  · rw [if_neg hhab]
    exact hacc

theorem stationModuleComputeds_gross_nonneg (station : PlanStation) (gameData : GameData)
    (effectiveSunlight : ℚ) (workforceStats : WorkforceStats)
    (hg : GameData.Nonneg gameData) (hsun : 0 ≤ effectiveSunlight)
    (hratio : 0 ≤ workforceStats.workerRatio)
    (hcount : ∀ m ∈ station.modules, 0 ≤ m.count) :
    ∀ mc ∈ stationModuleComputeds station gameData effectiveSunlight workforceStats,
      GrossNonneg mc := by
  unfold stationModuleComputeds
  apply distributeUpkeep_gross_nonneg
  intro mc hmc
  rcases List.mem_map.mp hmc with ⟨pm, hpm, rfl⟩
  exact computeModuleIo_gross_nonneg pm gameData effectiveSunlight
    workforceStats.workerRatio hg hsun hratio (hcount pm hpm)

theorem initModuleQMap2_nonneg (mods : List ModuleComputed)
    (select : ModuleComputed → List ResourceAmount)
    (h : ∀ mc ∈ mods, amountsNonneg (select mc)) :
    QMap2.Nonneg (initModuleQMap2 mods select) := by
  unfold initModuleQMap2
  apply foldl_preserves QMap2.Nonneg
  · intro p hp
    simp at hp
  · intro acc mc hmc hacc
    apply QMap2.set_Nonneg hacc
    apply foldl_preserves QMap.Nonneg
    · intro p hp
      simp at hp
    · intro m r hr hm
      exact QMap.Nonneg_set hm (h mc hmc r hr)

theorem initEmptyQMap2_nonneg (mods : List ModuleComputed) :
    QMap2.Nonneg (initEmptyQMap2 mods) := by
  unfold initEmptyQMap2
  apply foldl_preserves QMap2.Nonneg
  · intro p hp
    simp at hp
  · intro acc mc _ hacc
    exact QMap2.set_Nonneg hacc (fun p hp => by simp at hp)

theorem processM2MConn_AllNonneg {st : StationResolveState} {conn : PlanModuleConnection}
    (h : StationResolveState.AllNonneg st) (ha : 0 ≤ conn.amount) :
    StationResolveState.AllNonneg (processM2MConn st conn) := by
  obtain ⟨hOut, hIn, hSup, hExp⟩ := h
  have heff : 0 ≤ (resolveFlow (conn.mode.getD ConnectionMode.auto) conn.amount
      (QMap2.lookD st.remOut conn.sourceModuleId conn.wareId)
      (QMap2.lookD st.remIn conn.targetModuleId conn.wareId)).effectiveAmount :=
    resolveFlow_nonneg ha (QMap2.lookD_nonneg hOut _ _) (QMap2.lookD_nonneg hIn _ _)
  refine ⟨?_, ?_, ?_, ?_⟩ <;> simp only [processM2MConn]
  · apply QMap2.Nonneg_update hOut
    intro mm hmm
    exact QMap.Nonneg_set hmm (sub_nonneg.mpr
      (resolveFlow_le (conn.mode.getD ConnectionMode.auto) conn.amount _ _).1)
  · apply QMap2.Nonneg_update hIn
    intro mm hmm
    exact QMap.Nonneg_set hmm (sub_nonneg.mpr
      (resolveFlow_le (conn.mode.getD ConnectionMode.auto) conn.amount _ _).2)
  · apply QMap2.Nonneg_update hSup
    intro mm hmm
    exact QMap.Nonneg_set hmm (add_nonneg (QMap.getD_nonneg hmm _) heff)
  · apply QMap2.Nonneg_update hExp
    intro mm hmm
    exact QMap.Nonneg_set hmm (add_nonneg (QMap.getD_nonneg hmm _) heff)

theorem processStationInputConn_AllNonneg {st : StationResolveState}
    {conn : PlanModuleConnection} (h : StationResolveState.AllNonneg st) :
    StationResolveState.AllNonneg (processStationInputConn st conn) := by
  obtain ⟨hOut, hIn, hSup, hExp⟩ := h
  refine ⟨hOut, ?_, hSup, hExp⟩
  simp only [processStationInputConn]
  apply QMap2.Nonneg_update hIn
  intro mm hmm
  apply QMap.Nonneg_set hmm
  rw [sub_nonneg]
  cases hm : conn.mode.getD ConnectionMode.auto with
  | custom => exact min_le_right _ _
  | auto => exact le_refl _
  | max => exact le_refl _

theorem processStationOutputConn_AllNonneg {st : StationResolveState}
    {conn : PlanModuleConnection} (h : StationResolveState.AllNonneg st) :
    StationResolveState.AllNonneg (processStationOutputConn st conn) := by
  obtain ⟨hOut, hIn, hSup, hExp⟩ := h
  refine ⟨?_, hIn, hSup, hExp⟩
  simp only [processStationOutputConn]
  apply QMap2.Nonneg_update hOut
  intro mm hmm
  apply QMap.Nonneg_set hmm
  rw [sub_nonneg]
  cases hm : conn.mode.getD ConnectionMode.auto with
  | custom => exact min_le_right _ _
  | auto => exact le_refl _
  | max => exact le_refl _

theorem stationResolve_AllNonneg (moduleConnections : List PlanModuleConnection)
    (mcs1 : List ModuleComputed) (h1 : ∀ mc ∈ mcs1, GrossNonneg mc)
    (hca : ∀ c ∈ moduleConnections, 0 ≤ c.amount) :
    StationResolveState.AllNonneg (stationResolve moduleConnections mcs1) := by
  unfold stationResolve
  apply foldl_preserves StationResolveState.AllNonneg
  · apply foldl_preserves StationResolveState.AllNonneg
    · apply foldl_preserves StationResolveState.AllNonneg
      · exact ⟨initModuleQMap2_nonneg mcs1 _ (fun mc hmc => (h1 mc hmc).2),
          initModuleQMap2_nonneg mcs1 _ (fun mc hmc => (h1 mc hmc).1),
          initEmptyQMap2_nonneg mcs1, initEmptyQMap2_nonneg mcs1⟩
      · intro s c hc hs
        exact processM2MConn_AllNonneg hs (hca c (List.mem_filter.mp hc).1)
    · intro s c _ hs
      exact processStationInputConn_AllNonneg hs
  · intro s c _ hs
    exact processStationOutputConn_AllNonneg hs

theorem applyModuleNets_ok (st : StationResolveState) (mods : List ModuleComputed)
    (hsup : QMap2.Nonneg st.supplied) (hexp : QMap2.Nonneg st.exported) :
    ∀ mc ∈ applyModuleNets st mods, ModuleNetsOk mc := by
  intro mc hmc
  unfold applyModuleNets at hmc
  rcases List.mem_map.mp hmc with ⟨mc0, _, rfl⟩
  have hsup0 : QMap.Nonneg ((QMap2.find? st.supplied mc0.moduleId).getD []) := by
    cases hf : QMap2.find? st.supplied mc0.moduleId with
    | none => intro p hp; simp at hp
    | some mm => simpa using hsup _ (QMap2.find?_some_mem hf)
  have hexp0 : QMap.Nonneg ((QMap2.find? st.exported mc0.moduleId).getD []) := by
    cases hf : QMap2.find? st.exported mc0.moduleId with
    | none => intro p hp; simp at hp
    | some mm => simpa using hexp _ (QMap2.find?_some_mem hf)
  constructor
  · intro n hn
    dsimp only at hn
    rcases List.mem_filterMap.mp hn with ⟨input, hin, hsome⟩
    by_cases hcond : input.amount -
        QMap.getD ((QMap2.find? st.supplied mc0.moduleId).getD []) input.wareId > 1/100
    · rw [if_pos hcond] at hsome
      obtain rfl := Option.some.inj hsome
      refine ⟨hcond, input, hin, rfl, ?_⟩
      exact sub_le_self _ (QMap.getD_nonneg hsup0 _)
    · rw [if_neg hcond] at hsome
      simp at hsome
  · intro n hn
    dsimp only at hn
    rcases List.mem_filterMap.mp hn with ⟨output, hout, hsome⟩
    by_cases hcond : output.amount -
        QMap.getD ((QMap2.find? st.exported mc0.moduleId).getD []) output.wareId > 1/100
    · rw [if_pos hcond] at hsome
      obtain rfl := Option.some.inj hsome
      refine ⟨hcond, output, hout, rfl, ?_⟩
      exact sub_le_self _ (QMap.getD_nonneg hexp0 _)
    · rw [if_neg hcond] at hsome
      simp at hsome

theorem computeStation_modules_ok (station : PlanStation) (sectors : List PlanSector)
    (gameData : GameData) (hg : GameData.Nonneg gameData)
    (hsec : ∀ s ∈ sectors, 0 ≤ s.sunlight)
    (hover : 0 ≤ station.sunlightOverride.getD 0)
    (hcount : ∀ m ∈ station.modules, 0 ≤ m.count)
    (hconns : ∀ c ∈ station.moduleConnections, 0 ≤ c.amount) :
    ∀ mc ∈ (computeStation station sectors gameData).modules, ModuleNetsOk mc := by
  have htot := stationWorkforceTotals_nonneg station.modules gameData hg hcount
  have hratio := calculateWorkforceStats_workerRatio_nonneg
    (stationWorkforceTotals station.modules gameData).1
    (stationWorkforceTotals station.modules gameData).2
    (station.fillHabitats.getD false) htot.1 htot.2
  have hgross := stationModuleComputeds_gross_nonneg station gameData
    (getEffectiveSunlight station sectors)
    (calculateWorkforceStats (stationWorkforceTotals station.modules gameData).1
      (stationWorkforceTotals station.modules gameData).2 (station.fillHabitats.getD false))
    hg (getEffectiveSunlight_nonneg station sectors hover hsec) hratio hcount
  have hall := stationResolve_AllNonneg station.moduleConnections
    (stationModuleComputeds station gameData (getEffectiveSunlight station sectors)
      (calculateWorkforceStats (stationWorkforceTotals station.modules gameData).1
        (stationWorkforceTotals station.modules gameData).2
        (station.fillHabitats.getD false)))
    hgross hconns
  intro mc hmc
  exact applyModuleNets_ok _ _ hall.2.2.1 hall.2.2.2 mc hmc

theorem applyInputCascade_ok (moduleConnections : List PlanModuleConnection)
    (mods : List ModuleComputed) (w : String) (tS : ℚ)
    (hconns : ∀ c ∈ moduleConnections, 0 ≤ c.amount)
    (h : ∀ mc ∈ mods, ModuleNetsOk mc) :
    ∀ mc ∈ applyInputCascade moduleConnections mods w tS, ModuleNetsOk mc := by
  unfold applyInputCascade
  by_cases h1 : tS < 1/100
  · rw [if_pos h1]
    exact h
  · rw [if_neg h1]
    by_cases h2 : (moduleConnections.filter
        (fun c => c.sourceModuleId = STATION_INPUT_ID && c.wareId = w)).isEmpty = true
    · rw [if_pos h2]
      exact h
    · rw [if_neg h2]
      by_cases h3 : (moduleConnections.filter
          (fun c => c.sourceModuleId = STATION_INPUT_ID && c.wareId = w)).foldl
            (fun sum c => sum + c.amount) 0 < 1/100
      · rw [if_pos h3]
        exact h
      · rw [if_neg h3]
        have hratio : 0 ≤ min (tS / ((moduleConnections.filter
            (fun c => c.sourceModuleId = STATION_INPUT_ID && c.wareId = w)).foldl
              (fun sum c => sum + c.amount) 0)) 1 :=
          le_min (div_nonneg (le_trans (by norm_num) (not_lt.mp h1))
            (le_trans (by norm_num) (not_lt.mp h3))) zero_le_one
        apply foldl_preserves (fun acc => ∀ mc ∈ acc, ModuleNetsOk mc) _ _ _ h
        intro acc conn hconn hacc
        intro mc hmc
        rcases updateFirstModule_mem hmc with hmc | ⟨mc0, hmc0, rfl⟩
        · exact hacc mc hmc
        · obtain ⟨hni, hno⟩ := hacc mc0 hmc0
          have hdelta : 0 ≤ conn.amount * min (tS / ((moduleConnections.filter
              (fun c => c.sourceModuleId = STATION_INPUT_ID && c.wareId = w)).foldl
                (fun sum c => sum + c.amount) 0)) 1 :=
            mul_nonneg (hconns conn (List.mem_filter.mp hconn).1) hratio
          constructor
          · intro n hn
            dsimp only at hn
            refine ⟨reduceNetEntry_gt_eps (fun m hm => (hni m hm).1) n hn, ?_⟩
            obtain ⟨n0, hn0, hw, hle⟩ := reduceNetEntry_dominated hdelta n hn
            obtain ⟨_, g0, hg0, hgw, hgle⟩ := hni n0 hn0
            exact ⟨g0, hg0, by rw [hgw, hw], le_trans hle hgle⟩
          · exact hno

theorem applyOutputCascade_ok (moduleConnections : List PlanModuleConnection)
    (mods : List ModuleComputed) (w : String) (tC : ℚ)
    (hconns : ∀ c ∈ moduleConnections, 0 ≤ c.amount)
    (h : ∀ mc ∈ mods, ModuleNetsOk mc) :
    ∀ mc ∈ applyOutputCascade moduleConnections mods w tC, ModuleNetsOk mc := by
  unfold applyOutputCascade
  by_cases h1 : tC < 1/100
  · rw [if_pos h1]
    exact h
  · rw [if_neg h1]
    by_cases h2 : (moduleConnections.filter
        (fun c => c.targetModuleId = STATION_OUTPUT_ID && c.wareId = w)).isEmpty = true
    · rw [if_pos h2]
      exact h
    · rw [if_neg h2]
      by_cases h3 : (moduleConnections.filter
          (fun c => c.targetModuleId = STATION_OUTPUT_ID && c.wareId = w)).foldl
            (fun sum c => sum + c.amount) 0 < 1/100
      · rw [if_pos h3]
        exact h
      · rw [if_neg h3]
        have hratio : 0 ≤ min (tC / ((moduleConnections.filter
            (fun c => c.targetModuleId = STATION_OUTPUT_ID && c.wareId = w)).foldl
              (fun sum c => sum + c.amount) 0)) 1 :=
          le_min (div_nonneg (le_trans (by norm_num) (not_lt.mp h1))
            (le_trans (by norm_num) (not_lt.mp h3))) zero_le_one
        apply foldl_preserves (fun acc => ∀ mc ∈ acc, ModuleNetsOk mc) _ _ _ h
        intro acc conn hconn hacc
        intro mc hmc
        rcases updateFirstModule_mem hmc with hmc | ⟨mc0, hmc0, rfl⟩
        · exact hacc mc hmc
        · obtain ⟨hni, hno⟩ := hacc mc0 hmc0
          have hdelta : 0 ≤ conn.amount * min (tC / ((moduleConnections.filter
              (fun c => c.targetModuleId = STATION_OUTPUT_ID && c.wareId = w)).foldl
                (fun sum c => sum + c.amount) 0)) 1 :=
            mul_nonneg (hconns conn (List.mem_filter.mp hconn).1) hratio
          constructor
          · exact hni
          · intro n hn
            dsimp only at hn
            refine ⟨reduceNetEntry_gt_eps (fun m hm => (hno m hm).1) n hn, ?_⟩
            obtain ⟨n0, hn0, hw, hle⟩ := reduceNetEntry_dominated hdelta n hn
            obtain ⟨_, g0, hg0, hgw, hgle⟩ := hno n0 hn0
            exact ⟨g0, hg0, by rw [hgw, hw], le_trans hle hgle⟩

theorem finalizeStation_modules_ok (plan : Plan) (st : NetState) (sc : StationComputed)
    (hpc : ∀ station ∈ plan.stations, ∀ c ∈ station.moduleConnections, 0 ≤ c.amount)
    (h : ∀ mc ∈ sc.modules, ModuleNetsOk mc) :
    ∀ mc ∈ (finalizeStation plan st sc).modules, ModuleNetsOk mc := by
  unfold finalizeStation
  dsimp only
  cases hfind : plan.stations.find? (fun s => s.id = sc.stationId) with
  | none => exact h
  | some station =>
    have hconns := hpc station (List.mem_of_find?_eq_some hfind)
    apply foldl_preserves (fun acc => ∀ mc ∈ acc, ModuleNetsOk mc)
    · apply foldl_preserves (fun acc => ∀ mc ∈ acc, ModuleNetsOk mc) _ _ _ h
      intro acc p _ hacc
      exact applyInputCascade_ok station.moduleConnections acc p.1 p.2 hconns hacc
    · intro acc p _ hacc
      exact applyOutputCascade_ok station.moduleConnections acc p.1 p.2 hconns hacc

attribute [local semireducible] Rat.add Rat.sub Rat.mul Rat.inv in
/-- Counterexample to C5 as stated: in the plan `c5Plan` — one station whose
single module needs 100 ore/hr and whose module-connection list contains a
`custom` connection of stored amount -5 from a nonexistent source module —
`computeNetwork` produces a module whose netInputs entry (105) strictly
exceeds every grossInputs entry for the same ware (100), refuting the
universal gross-dominates-net invariant. -/
theorem net_exceeds_gross_counterexample :
    ∃ sc ∈ (computeNetwork c5Plan gdScenario).stations, ∃ mc ∈ sc.modules,
      ∃ n ∈ mc.netInputs, ∀ g ∈ mc.grossInputs, g.wareId = n.wareId →
        g.amount < n.amount := by
  decide

/-- C5 (amended): for every plan and catalog with nonnegative numeric data
(module counts, stored connection amounts at both levels, sunlight values,
recipe amounts/inputs/workforce fields nonnegative and recipe times
positive), in the `computeNetwork` result every module netInputs amount is
bounded by a grossInputs entry for the same ware, every netOutputs amount by
a grossOutputs entry, and every amount in the module-level and station-level
netInputs/netOutputs lists is strictly greater than the 0.01 epsilon. -/
theorem gross_dominates_net_of_nonneg (plan : Plan) (gameData : GameData)
    (hp : plan.Nonneg) (hg : gameData.Nonneg) :
    ∀ sc ∈ (computeNetwork plan gameData).stations,
      (∀ mc ∈ sc.modules, ModuleNetsOk mc) ∧
      (∀ r ∈ sc.netInputs, (1:ℚ)/100 < r.amount) ∧
      (∀ r ∈ sc.netOutputs, (1:ℚ)/100 < r.amount) := by
  intro sc hsc
  have hsc' : sc ∈ (stationComputedsOf plan gameData).map
      (fun sc0 => finalizeStation plan (networkFlowState plan gameData) sc0) := hsc
  obtain ⟨sc0, hsc0, rfl⟩ := List.mem_map.mp hsc'
  unfold stationComputedsOf at hsc0
  obtain ⟨station, hstation, rfl⟩ := List.mem_map.mp hsc0
  have hpc : ∀ station2 ∈ plan.stations, ∀ c ∈ station2.moduleConnections, 0 ≤ c.amount :=
    fun station2 hst2 => (hp.1 station2 hst2).2.1
  refine ⟨?_, ?_, ?_⟩
  · apply finalizeStation_modules_ok plan _ _ hpc
    exact computeStation_modules_ok station plan.sectors gameData hg hp.2.2
      (hp.1 station hstation).2.2 (hp.1 station hstation).1 (hpc station hstation)
  · intro r hr
    have hr' : r ∈ (computeStation station plan.sectors gameData).netInputs := hr
    exact aggregateResourcesStation_gt_eps hr'
  · intro r hr
    have hr' : r ∈ (computeStation station plan.sectors gameData).netOutputs := hr
    exact aggregateResourcesStation_gt_eps hr'

attribute [local semireducible] Rat.add Rat.sub Rat.mul Rat.inv in
/-- Witness for the amended C5 at the concrete deficit scenario: station A's
computed module (gross ore input 100, net ore input 40 after the cascade)
satisfies the gross-dominates-net and epsilon-floor invariant. -/
theorem gross_dominates_net_of_nonneg_witness :
    ModuleNetsOk ⟨"mA", "prodA", [⟨"ore", 100⟩], [⟨"widgets", 1⟩],
      [⟨"ore", 40⟩], [⟨"widgets", 1⟩]⟩ := by
  have h := gross_dominates_net_of_nonneg scenarioPlan gdScenario
    (by unfold Plan.Nonneg; decide) (by unfold GameData.Nonneg; decide)
  exact (h ⟨"A", 100, 0, 0, 0, 0, 0,
    [⟨"mA", "prodA", [⟨"ore", 100⟩], [⟨"widgets", 1⟩], [⟨"ore", 40⟩], [⟨"widgets", 1⟩]⟩],
    [⟨"ore", 100⟩], [⟨"widgets", 1⟩], [⟨"ore", 100⟩], [⟨"widgets", 1⟩],
    [], [⟨"widgets", 1⟩], [⟨"ore", 100⟩], [],
    [⟨"ore", 60⟩], [], [⟨"ore", 40⟩], [],
    [⟨"mcA", 100, false, false⟩]⟩ (by decide)).1
    ⟨"mA", "prodA", [⟨"ore", 100⟩], [⟨"widgets", 1⟩], [⟨"ore", 40⟩], [⟨"widgets", 1⟩]⟩
    (by decide)
